import Mathlib

/-!
# A shallow embedding of the `brick` dependency-injection engine

This file embeds the resolution engine of the `brick` Go library
(`create.go`, `register.go`, `config.go`, and the core declarations shown in
`README.md`) into Lean 4 and proves properties of the embedding.

Modelling conventions:
* Go `reflect.Type` values are modelled by `GoType`: a named base type wrapped
  in zero or more pointer layers.  Interface kinds are not modelled (none of
  the verified claims exercises `injectInterfaceBrick`).
* Go maps are modelled as association lists; writing prepends, lookup takes
  the first hit, which coincides with map overwrite semantics.
* `panic` is modelled by an error result.  Since the Go state lives in global
  maps that keep their contents when a panic unwinds, every modelled function
  returns the manager state alongside the `Except` result.
* The `singleflight.Group.Do` call is modelled as a direct invocation of its
  closure: in a sequential execution that is exactly what `Do` does.
* `RandomLiveID` is modelled by a deterministic fresh-name oracle driven by a
  counter stored in the manager.
* Allocation identity (`reflect.New`, factory results) is modelled by a
  counter `allocCounter`; each constructed instance receives a fresh address.
  Factories are modelled as returning a freshly allocated value, following the
  spec's glossary ("Factory: type-provided function converting a raw
  configuration payload into a new instance").
-/

namespace Brick

/-- A Go type as far as the engine cares: a named base type under some number
of pointer layers (`reflect.Ptr` kinds). -/
inductive GoType where
  | base (name : String)
  | ptr (elem : GoType)
deriving DecidableEq, Repr

/-- Number of pointer layers, mirroring `getPointerLevel`. -/
def getPointerLevel : GoType → Nat
  | .base _ => 0
  | .ptr t => 1 + getPointerLevel t

/-- The base name below all pointer layers (the fully dereferenced type). -/
def baseNameOf : GoType → String
  | .base n => n
  | .ptr t => baseNameOf t

/-- `isSameBaseType` from the source: strip all pointer layers from both types
and compare. -/
def isSameBaseType (t1 t2 : GoType) : Bool :=
  baseNameOf t1 = baseNameOf t2 && true

/-- A runtime instance (`reflect.Value`): its base type name, its current
pointer level, and the address of the underlying allocation, which is its
identity. -/
structure Value where
  baseName : String
  level : Nat
  addr : Nat
deriving DecidableEq, Repr

/-- `wrapPointerLayer`: wrap a value in one more pointer layer.  The
underlying allocation (the identity) is unchanged. -/
def wrapPointerLayer (v : Value) : Value :=
  { v with level := v.level + 1 }

/-- `Value.Elem()` on a pointer: peel one pointer layer. -/
def derefValue (v : Value) : Value :=
  { v with level := v.level - 1 }

/-- `convertInstance`: adjust a stored instance's indirection level to the
level requested by `targetType`.  (Interface targets are not modelled.) -/
def convertInstance (v : Value) (targetType : GoType) : Value :=
  { v with level := getPointerLevel targetType }

/-! ## Association-list helpers (Go map semantics) -/

/-- Lookup in an association list; the first binding wins (map semantics,
since writes prepend). -/
def alookup {α : Type} {β : Type} [DecidableEq α] (k : α) :
    List (α × β) → Option β
  | [] => none
  | (a, b) :: t => if a = k then some b else alookup k t

theorem alookup_cons {α β : Type} [DecidableEq α] (k a : α) (b : β)
    (l : List (α × β)) :
    alookup k ((a, b) :: l) = if a = k then some b else alookup k l := rfl

/-! ## The tag descriptor parser

`parseTag` parses a dependency annotation string into
`(liveID, typeID, isClone, isRandomLiveID)`.  The Go source uses
`strings.Split`, `strings.HasPrefix` and `strings.TrimPrefix`; these Go
library functions are embedded below over lists of characters. -/

/-- Go `strings.Split(s, ",")` on characters: split at every comma, keeping
empty fragments. -/
def splitComma : List Char → List (List Char)
  | [] => [[]]
  | c :: rest =>
    if c = ',' then [] :: splitComma rest
    else
      match splitComma rest with
      | [] => [[c]]
      | g :: gs => (c :: g) :: gs

theorem splitComma_ne_nil (l : List Char) : splitComma l ≠ [] := by
  cases l with
  | nil => simp [splitComma]
  | cons c rest =>
    simp only [splitComma]
    split
    · simp
    · split <;> simp

/-- Go `strings.HasPrefix`. -/
def goHasPrefix (s pre : List Char) : Bool :=
  decide (pre <+: s)

/-- Go `strings.TrimPrefix`: drop the prefix if present, else return the
string unchanged. -/
def goTrimPrefix (s pre : List Char) : List Char :=
  if goHasPrefix s pre then s.drop pre.length else s

/-- The characters of `"clone:"`. -/
def cloneColon : List Char := ['c', 'l', 'o', 'n', 'e', ':']

/-- The characters of `"clone"`. -/
def cloneChars : List Char := ['c', 'l', 'o', 'n', 'e']

/-- The characters of `"random"`. -/
def randomChars : List Char := ['r', 'a', 'n', 'd', 'o', 'm']

/-- `parseTag` on the character list of the tag, mirroring the source:

* `"random"` sets only the random flag;
* otherwise split at commas; `liveID` is the first fragment and `typeID` the
  second fragment if present;
* if the tag starts with `"clone:"` or equals `"clone"`, set the clone flag,
  trim a `"clone:"` prefix from `liveID`, and reset `liveID` to empty if what
  remains is the literal `"clone"`. -/
def parseTagL (tag : List Char) : List Char × List Char × Bool × Bool :=
  if tag = randomChars then ([], [], false, true)
  else
    let ids := splitComma tag
    let liveID := ids.headD []
    let typeID := if ids.length ≥ 2 then ids.getD 1 [] else []
    if goHasPrefix tag cloneColon || tag = cloneChars then
      let l1 := goTrimPrefix liveID cloneColon
      let l2 := if l1 = cloneChars then [] else l1
      (l2, typeID, true, false)
    else
      (liveID, typeID, false, false)

/-- `parseTag` on strings: `(liveID, typeID, isClone, isRandomLiveID)`. -/
def parseTag (tag : String) : String × String × Bool × Bool :=
  match parseTagL tag.data with
  | (l, t, c, r) => (String.mk l, String.mk t, c, r)

/-! ## The static Go world

A `World` describes the Go program's type declarations: which named base
types are struct types and what fields they have, which types implement the
`Brick` / `BrickNewer` / `BrickLives` interfaces, and what their
`BrickTypeID` methods return.  This data is fixed for a run. -/

/-- One struct field as the engine sees it: name, declared type, the value of
the `brick` tag if the field carries one, and whether the field is settable
(exported).  The anonymous `BrickBase` helper field is not modelled: it only
receives the liveID string and takes no part in resolution. -/
structure FieldInfo where
  name : String
  typ : GoType
  tag : Option String
  canSet : Bool
deriving DecidableEq, Repr

/-- A named struct type's dependency-relevant shape. -/
structure StructInfo where
  fields : List FieldInfo
deriving DecidableEq, Repr

/-- A `Live` entry (`config.go`): a live identity plus per-field override
descriptors. -/
structure Live where
  LiveID : String
  RelyLives : List (String × String)
deriving DecidableEq, Repr

/-- A factory (`NewBrick`): modelled by the shape of the instance it returns.
The returned instance is freshly allocated (glossary: a factory converts a
raw configuration payload into a *new* instance). -/
structure Factory where
  retBase : String
  retLevel : Nat
deriving DecidableEq, Repr

/-- The static type environment of the Go program. -/
structure World where
  /-- Named struct types and their fields; a base name absent from this list
  has a non-struct kind (int, interface, ...). -/
  structs : List (String × StructInfo)
  /-- Base names whose value type implements `Brick` (value receiver). -/
  valueImpl : List String
  /-- Base names implementing `Brick` only through a pointer receiver. -/
  ptrOnlyImpl : List String
  /-- Result of the `BrickTypeID` method per base name. -/
  typeIDs : List (String × String)
  /-- Types implementing `BrickNewer`, with their factory behaviour. -/
  newer : List (String × Factory)
  /-- Types implementing `BrickLives`, with their declared lives. -/
  lives : List (String × List Live)
deriving Repr

/-- Does `*T` implement `Brick`?  In Go the method set of `*T` contains the
method set of `T`, so this holds whenever the value type implements it. -/
def World.ptrImpl (w : World) (n : String) : Bool :=
  w.valueImpl.contains n || w.ptrOnlyImpl.contains n

/-- `BrickTypeID()` of a base type (an author-supplied constant). -/
def World.typeIDOf (w : World) (n : String) : String :=
  (alookup n w.typeIDs).getD ""

/-! ## The manager state -/

/-- `BrickConfig` (`README.md`): one configuration entry.  The raw payload is
an interface value; copying the struct shares the payload reference, which is
modelled by `Config` being an (optional) payload address. -/
structure BrickConfig where
  TypeID : String
  LiveID : String
  noCheck : Bool
  Config : Option Nat
deriving DecidableEq, Repr

/-- The mutable state of `BrickManager`: the config store, instance cache,
factory table, the type/typeID bidirectional maps, the registered
liveID-to-type table, the declared-live-ID set, plus the two deterministic
oracles replacing `RandomLiveID` and heap allocation. -/
structure Manager where
  brickConfigs : List (String × BrickConfig)
  instances : List (String × Value)
  brickFactories : List (String × Factory)
  map1 : List (GoType × String)
  map2 : List (String × GoType)
  liveIDTypeMap : List (String × GoType)
  declaredLiveIDs : List String
  liveIDConstraint : Bool
  randCounter : Nat
  allocCounter : Nat
deriving Repr

/-- The initial manager (the package-level `brickManager` literal). -/
def initManager : Manager :=
  { brickConfigs := [], instances := [], brickFactories := [], map1 := []
    map2 := [], liveIDTypeMap := [], declaredLiveIDs := []
    liveIDConstraint := true, randCounter := 0, allocCounter := 0 }

/-- `RandomLiveID`, modelled as a deterministic fresh-name oracle. -/
def randomLiveID (n : Nat) : String :=
  "RANDOM-" ++ toString n

/-- Draw a fresh random live identity from the manager's oracle. -/
def Manager.freshRandom (m : Manager) : String × Manager :=
  (randomLiveID m.randCounter, { m with randCounter := m.randCounter + 1 })

/-- Allocate a fresh address. -/
def Manager.alloc (m : Manager) : Nat × Manager :=
  (m.allocCounter, { m with allocCounter := m.allocCounter + 1 })

/-- `getBrickTypeID` (`config.go`): the typeID registered for a type. -/
def Manager.getBrickTypeID (m : Manager) (t : GoType) : Option String :=
  alookup t m.map1

/-- `getBrickType` (`config.go`): the type registered under a typeID. -/
def Manager.getBrickType (m : Manager) (typeID : String) : Option GoType :=
  alookup typeID m.map2

/-- `getBrickFromExist` (`config.go`). -/
def Manager.getBrickFromExist (m : Manager) (liveID : String) : Option Value :=
  alookup liveID m.instances

/-- `getBrickConfig` (`config.go`). -/
def Manager.getBrickConfig (m : Manager) (liveID : String) : Option BrickConfig :=
  alookup liveID m.brickConfigs

/-- `getBrickFactory` (`config.go`). -/
def Manager.getBrickFactory (m : Manager) (typeID : String) : Option Factory :=
  alookup typeID m.brickFactories

/-- `getDeclaredLiveID` (`config.go`). -/
def Manager.getDeclaredLiveID (m : Manager) (liveID : String) : Bool :=
  m.declaredLiveIDs.contains liveID

/-- `setDeclaredLiveID` (`config.go`). -/
def Manager.setDeclaredLiveID (m : Manager) (liveID : String) : Manager :=
  { m with declaredLiveIDs := liveID :: m.declaredLiveIDs }

/-- `setBrickConfig` (`config.go`): store a configuration entry under
`liveID`, overwriting the entry's own `LiveID` field with the key first. -/
def Manager.setBrickConfig (m : Manager) (liveID : String)
    (brickConfig : BrickConfig) : Manager :=
  { m with brickConfigs :=
      (liveID, { brickConfig with LiveID := liveID }) :: m.brickConfigs }

/-- `setBrickTypeID` (`config.go`): if the type is already bound, report
failure and change nothing; otherwise bind the type to the typeID in `map1`
and write the reverse binding into `map2` (overwriting any previous type
registered under that typeID). -/
def Manager.setBrickTypeID (m : Manager) (typ : GoType) (typeID : String) :
    Bool × Manager :=
  if (alookup typ m.map1).isSome then (false, m)
  else (true, { m with map1 := (typ, typeID) :: m.map1
                       map2 := (typeID, typ) :: m.map2 })

/-- `saveBrickInstance` (`config.go`): cache an instance; panics (models as
an error) if the instance is not stored behind at least one pointer. -/
def Manager.saveBrickInstance (m : Manager) (liveID : String) (brick : Value) :
    Except Unit Manager :=
  if brick.level = 0 then .error ()
  else .ok { m with instances := (liveID, brick) :: m.instances }

/-- `getBrickLives` (`README.md`): the `BrickLives()` table of a type, when
the type implements `BrickLives`. -/
def getBrickLives (w : World) (baseName : String) : Option (List Live) :=
  alookup baseName w.lives

/-- `createEmptyPtrInstance`.  Modelled from the spec: the function itself is
absent from the provided sources (only its callers in `create.go` and its
unit test are present).  Per spec section 4.2 step 8 it synthesizes a
zero-valued instance and normalizes it to an addressable reference, and per
its unit test the result type is `typ` itself when `typ` is already a
pointer and `*typ` otherwise, with all inner pointer layers allocated.  The
model allocates a fresh address at pointer level `max 1 (level typ)`. -/
def createEmptyPtrInstance (m : Manager) (typ : GoType) : Value × Manager :=
  let (a, m') := m.alloc
  (⟨baseNameOf typ, Nat.max 1 (getPointerLevel typ), a⟩, m')

/-- Invoke a factory: a fresh instance of the factory's result shape.  The
configuration payload only influences field contents, which the model does
not track. -/
def invokeFactory (m : Manager) (fac : Factory) : Value × Manager :=
  let (a, m') := m.alloc
  (⟨fac.retBase, fac.retLevel, a⟩, m')

/-! ## Errors -/

/-- The fatal failure modes of the engine (`panic` sites), plus `fuelOut`
marking exhaustion of the recursion budget of the embedding. -/
inductive Err where
  | notRegistered (t : GoType)
  | liveIDCollision (liveID : String)
  | notDeclared (liveID : String)
  | circularDependency (t : GoType) (liveID : String)
  | configLiveIDMismatch (configID targetID : String)
  | configTypeIDMismatch (configID typeID : String)
  | factoryWrongType (typeID : String)
  | cloneTypeNotFound (t : GoType)
  | internalNotPointer (liveID : String)
  | fieldNotBrick (fieldName ownerName : String)
  | missingFactoryForConfig (typeID : String)
  | notABrickType (t : GoType)
  | noConfigForLiveID (liveID : String)
  | fuelOut
deriving DecidableEq, Repr

/-- The message text of each fatal error, following the `fmt.Errorf` /
`fmt.Sprintf` format strings of the source (braces replaced by parentheses). -/
def errMessage : Err → String
  | .notRegistered t => "this brick type is not registered: " ++ reprStr t
  | .liveIDCollision l =>
      "liveID(" ++ l ++ ") is not allowed to be the same as the typeID of other brick"
  | .notDeclared l =>
      "liveID(" ++ l ++
        ") is not explicitly declared in the configuration or tag, you can use " ++
        "GetOrCreate" ++ " to create it"
  | .circularDependency t l =>
      "circular dependency detected, brickType: " ++ reprStr t ++ ", liveID: " ++ l
  | .configLiveIDMismatch a b =>
      "config liveID mismatch: ID(" ++ a ++ ") != ID(" ++ b ++ ")"
  | .configTypeIDMismatch a b =>
      "config TypeID mismatch: ID(" ++ a ++ ") != ID(" ++ b ++ ")"
  | .factoryWrongType typeID =>
      "brick(" ++ typeID ++ ") NewBrick method return error type"
  | .cloneTypeNotFound t =>
      "unexpect error, brick type(" ++ reprStr t ++ ") not found"
  | .internalNotPointer l =>
      "internal error: brick(" ++ l ++ ") instance is not a pointer"
  | .fieldNotBrick f o => "field " ++ f ++ " in " ++ o ++ " is not a brick component"
  | .missingFactoryForConfig typeID =>
      "the brick(" ++ typeID ++ ") provided config, but no config parser"
  | .notABrickType t => "type " ++ reprStr t ++ " is not a brick"
  | .noConfigForLiveID l => "liveID(" ++ l ++ ") does not have a configuration"
  | .fuelOut => "recursion budget of the embedding exhausted"

/-- The per-call resolution context (`getBrickInstanceCtx`): the set of types
currently under construction in this call chain, and the create-if-missing
flag. -/
structure Ctx where
  buildingBrick : List GoType
  createUnknown : Bool
deriving DecidableEq, Repr

/-- The annotation actually used for a field: the live-override entry for
this field name when the selected `Live` provides one, else the field's
static tag (`create.go` lines 216-221). -/
def effectiveTag (brickLive : Option Live) (fieldName : String)
    (tag0 : String) : String :=
  match brickLive with
  | some live => (alookup fieldName live.RelyLives).getD tag0
  | none => tag0

/-- Reconstruct the `reflect.Type` of a stored value. -/
def wrapLevels (n : String) : Nat → GoType
  | 0 => .base n
  | l + 1 => .ptr (wrapLevels n l)

/-- The `reflect.Type` of a value. -/
def Value.goType (v : Value) : GoType := wrapLevels v.baseName v.level

/-- The pointer-unwrapping loop of `getBrickInstance` (`create.go` lines
53-61): for a pointer type whose exact type is unregistered, look up each
successively dereferenced type until a registered one is found. -/
def scanInnerTypeID (m : Manager) : GoType → Option String
  | .base _ => none
  | .ptr t =>
    match m.getBrickTypeID t with
    | some typeID => some typeID
    | none => scanInnerTypeID m t

/-! ## The resolution engine

`getBrickInstance` is `create.go`'s function of the same name;
`getBrickCore` is its body once the type identifier has been determined
(steps 2-10 of spec section 4.2), `injectBrick`/`injectFields` model the
injector, and `cloneBrick` the clone subsystem.  The `fuel` argument is the
recursion budget of the embedding; the Go original recurses without a budget
and the termination theorems below show when the budget cannot run out. -/

mutual

/-- `getBrickInstance` (`create.go`): map the requested type to a type
identifier, retrying against related indirection levels, then run the core
resolution.  Exhausting `fuel` yields `Err.fuelOut`. -/
def getBrickInstance (w : World) (fuel : Nat) (m : Manager) (ctx : Ctx)
    (brickType : GoType) (liveID : String) : (Except Err Value) × Manager :=
  match fuel with
  | 0 => (.error .fuelOut, m)
  | fuel' + 1 =>
    match m.getBrickTypeID brickType with
    | some typeID => getBrickCore w fuel' m ctx brickType liveID typeID
    | none =>
      match brickType with
      | .ptr _ =>
        match scanInnerTypeID m brickType with
        | some typeID => getBrickCore w fuel' m ctx brickType liveID typeID
        | none => (.error (.notRegistered brickType), m)
      | .base _ =>
        match m.getBrickTypeID (.ptr brickType) with
        | none => (.error (.notRegistered brickType), m)
        | some _ =>
          match getBrickInstance w fuel' m ctx (.ptr brickType) liveID with
          | (.ok v, m') => (.ok (derefValue v), m')
          | (.error e, m') => (.error e, m')

/-- Steps 2-10 of the resolution contract: compute the target live identity,
reject identity collisions, serve from the instance cache, enforce the
declared-live-ID rule, guard against cycles, then build (config checks,
factory or zero value, injection, cache write-back, shape conversion). -/
def getBrickCore (w : World) (fuel : Nat) (m : Manager) (ctx : Ctx)
    (brickType : GoType) (liveID typeID : String) :
    (Except Err Value) × Manager :=
  match fuel with
  | 0 => (.error .fuelOut, m)
  | fuel' + 1 =>
    let targetLiveID := if liveID ≠ "" then liveID else typeID
    if targetLiveID ≠ typeID ∧ (m.getBrickType targetLiveID).isSome then
      (.error (.liveIDCollision targetLiveID), m)
    else
      match m.getBrickFromExist targetLiveID with
      | some brick => (.ok (convertInstance brick brickType), m)
      | none =>
        if ¬ctx.createUnknown ∧ targetLiveID ≠ typeID ∧
            ¬(m.getDeclaredLiveID targetLiveID) then
          (.error (.notDeclared targetLiveID), m)
        else if brickType ∈ ctx.buildingBrick then
          (.error (.circularDependency brickType targetLiveID), m)
        else
          let ctx' : Ctx := { ctx with buildingBrick := brickType :: ctx.buildingBrick }
          getBrickBuildDo w fuel' m ctx' brickType targetLiveID typeID

/-- The closure passed to `buildingBrickGroup.Do` (`create.go` lines
104-137), invoked directly (sequential semantics of singleflight): check the
configuration entry's identifiers, construct the instance through the
factory or as a zero value normalized to a pointer, inject its dependency
fields, cache it under the target live identity, and convert it to the
requested shape. -/
def getBrickBuildDo (w : World) (fuel : Nat) (m : Manager) (ctx' : Ctx)
    (brickType : GoType) (targetLiveID typeID : String) :
    (Except Err Value) × Manager :=
  match fuel with
  | 0 => (.error .fuelOut, m)
  | fuel' + 1 =>
    let cfgErr : Option Err :=
      match m.getBrickConfig targetLiveID with
      | some cfg =>
        if cfg.LiveID ≠ targetLiveID then
          some (.configLiveIDMismatch cfg.LiveID targetLiveID)
        else if cfg.TypeID ≠ typeID then
          some (.configTypeIDMismatch cfg.TypeID typeID)
        else none
      | none => none
    match cfgErr with
    | some e => (.error e, m)
    | none =>
      match m.getBrickFactory typeID with
      | none =>
        let (ret, m1) := createEmptyPtrInstance m brickType
        match injectBrick w fuel' m1 ctx' ret targetLiveID with
        | (.error e, m2) => (.error e, m2)
        | (.ok ret2, m2) =>
          match m2.saveBrickInstance targetLiveID ret2 with
          | .error _ => (.error (.internalNotPointer targetLiveID), m2)
          | .ok m3 => (.ok (convertInstance ret2 brickType), m3)
      | some fac =>
        let (ret, m1) := invokeFactory m fac
        if ¬ isSameBaseType ret.goType brickType then
          (.error (.factoryWrongType typeID), m1)
        else
          let retP := if ret.level ≥ 1 then ret else wrapPointerLayer ret
          match injectBrick w fuel' m1 ctx' retP targetLiveID with
          | (.error e, m2) => (.error e, m2)
          | (.ok ret2, m2) =>
            match m2.saveBrickInstance targetLiveID ret2 with
            | .error _ => (.error (.internalNotPointer targetLiveID), m2)
            | .ok m3 => (.ok (convertInstance ret2 brickType), m3)

/-- `injectBrick` (`create.go`): dereference to the underlying struct (a
non-struct instance is returned untouched), select a live-override entry for
this live identity, and inject every dependency-tagged field.  Returns the
brick it was given. -/
def injectBrick (w : World) (fuel : Nat) (m : Manager) (ctx : Ctx)
    (brick : Value) (brickLiveID : String) : (Except Err Value) × Manager :=
  match fuel with
  | 0 => (.error .fuelOut, m)
  | fuel' + 1 =>
    match alookup brick.baseName w.structs with
    | none => (.ok brick, m)
    | some info =>
      let brickLive : Option Live :=
        match getBrickLives w brick.baseName with
        | some lives => lives.find? (fun live => decide (live.LiveID = brickLiveID))
        | none => none
      match injectFields w fuel' m ctx brickLive brickLiveID info.fields with
      | (.ok _, m') => (.ok brick, m')
      | (.error e, m') => (.error e, m')

/-- The field loop of `injectBrick`: skip unsettable and untagged fields,
apply the live override to the tag, then dispatch on the parsed descriptor:
random identity (fresh live identity, create-if-missing forced on), clone
(through the clone subsystem), or a plain recursive resolution. -/
def injectFields (w : World) (fuel : Nat) (m : Manager) (ctx : Ctx)
    (brickLive : Option Live) (brickLiveID : String) (fields : List FieldInfo) :
    (Except Err Unit) × Manager :=
  match fuel with
  | 0 => (.error .fuelOut, m)
  | fuel' + 1 =>
    match fields with
    | [] => (.ok (), m)
    | fld :: rest =>
      if ¬ fld.canSet then injectFields w fuel' m ctx brickLive brickLiveID rest
      else
        match fld.tag with
        | none => injectFields w fuel' m ctx brickLive brickLiveID rest
        | some tag0 =>
          let tag := effectiveTag brickLive fld.name tag0
          match parseTag tag with
          | (liveID0, _typeID, isClone, isRandomLiveID) =>
            if isRandomLiveID then
              let (rid, m1) := m.freshRandom
              let ctx' : Ctx := { ctx with createUnknown := true }
              match getBrickInstance w fuel' m1 ctx' fld.typ rid with
              | (.error e, m2) => (.error e, m2)
              | (.ok _, m2) => injectFields w fuel' m2 ctx brickLive brickLiveID rest
            else if isClone then
              match (if liveID0 = "" then m.getBrickTypeID fld.typ else some liveID0) with
              | none => (.error (.cloneTypeNotFound fld.typ), m)
              | some cloneID =>
                match cloneBrick w fuel' m fld.typ cloneID with
                | (.error e, m2) => (.error e, m2)
                | (.ok _, m2) => injectFields w fuel' m2 ctx brickLive brickLiveID rest
            else
              match getBrickInstance w fuel' m ctx fld.typ liveID0 with
              | (.error e, m2) => (.error e, m2)
              | (.ok _, m2) => injectFields w fuel' m2 ctx brickLive brickLiveID rest

/-- `cloneBrick` (`create.go`): allocate a fresh live identity, share the
source's configuration entry under it when one exists, and resolve the type
under the new identity with create-if-missing forced on and a *fresh, empty*
cycle-guard context. -/
def cloneBrick (w : World) (fuel : Nat) (m : Manager) (brickType : GoType)
    (liveID : String) : (Except Err Value) × Manager :=
  match fuel with
  | 0 => (.error .fuelOut, m)
  | fuel' + 1 =>
    let (newLiveID, m1) := m.freshRandom
    let m2 := match m1.getBrickConfig liveID with
      | some cfg => m1.setBrickConfig newLiveID cfg
      | none => m1
    let freshCtx : Ctx := { buildingBrick := [], createUnknown := true }
    getBrickInstance w fuel' m2 freshCtx brickType newLiveID

end

/-! ## The public entry points -/

/-- The loop body of `checkConfig` (`config.go`): a configuration entry with
a non-null payload, no skip-validation flag and no registered factory for its
type identifier is fatal.  (The source distinguishes two messages depending
on whether the type itself is registered; both are modelled by
`Err.missingFactoryForConfig`.) -/
def checkConfigList (m : Manager) : List (String × BrickConfig) → Except Err Unit
  | [] => .ok ()
  | (_, cfg) :: rest =>
    if cfg.Config.isSome ∧ ¬cfg.noCheck ∧ (m.getBrickFactory cfg.TypeID).isNone then
      .error (.missingFactoryForConfig cfg.TypeID)
    else checkConfigList m rest

/-- `checkConfig` (`config.go`): the one-time validation pass over all
ingested configuration entries. -/
def checkConfig (m : Manager) : Except Err Unit :=
  checkConfigList m m.brickConfigs

/-- `Get` (`create.go`): run the config check, then resolve with a fresh
cycle-guard set and create-if-missing off. -/
def Get (w : World) (fuel : Nat) (m : Manager) (brickType : GoType)
    (liveID : String) : (Except Err Value) × Manager :=
  match checkConfig m with
  | .error e => (.error e, m)
  | .ok _ =>
    getBrickInstance w fuel m { buildingBrick := [], createUnknown := false }
      brickType liveID

/-- `GetOrCreate` (`create.go`): like `Get` but with create-if-missing on. -/
def GetOrCreate (w : World) (fuel : Nat) (m : Manager) (brickType : GoType)
    (liveID : String) : (Except Err Value) × Manager :=
  match checkConfig m with
  | .error e => (.error e, m)
  | .ok _ =>
    getBrickInstance w fuel m { buildingBrick := [], createUnknown := true }
      brickType liveID

/-- `getTypeIDByReflectType` (`README.md`): strip all pointer layers and call
the type's own `BrickTypeID` method; fatal if the type does not implement
`Brick` through a pointer or as a value. -/
def getTypeIDByReflectType (w : World) (t : GoType) : Except Err String :=
  let n := baseNameOf t
  if w.ptrImpl n then .ok (w.typeIDOf n)
  else if w.valueImpl.contains n then .ok (w.typeIDOf n)
  else .error (.notABrickType t)

/-- `CloneConfig` (`create.go`): determine the source live identity (the
caller's argument, or the type's own type identifier), draw a fresh live
identity, fail fatally when the source has no configuration entry, otherwise
register the source's configuration entry (payload shared) under the new
identity, mark it declared, and return it.  No instance is constructed. -/
def CloneConfig (w : World) (m : Manager) (t : GoType) (liveID : String) :
    (Except Err String) × Manager :=
  match (if liveID ≠ "" then .ok liveID else getTypeIDByReflectType w t :
      Except Err String) with
  | .error e => (.error e, m)
  | .ok cloneId =>
    let (newLiveID, m1) := m.freshRandom
    match m1.getBrickConfig cloneId with
    | none => (.error (.noConfigForLiveID cloneId), m1)
    | some cfg =>
      let m2 := m1.setBrickConfig newLiveID cfg
      let m3 := m2.setDeclaredLiveID newLiveID
      (.ok newLiveID, m3)

/-! ## Registration -/

/-- `RegisterBrickParam` (`register.go`). -/
structure RegisterBrickParam where
  TypeID : String
  ReflectType : GoType
  Lives : List Live
  BrickFactory : Option Factory
deriving Repr

/-- First key of a live-override map that does not name a tagged dependency
field (the check at the end of `register`). -/
def findBadRelyPair (names : List String) :
    List (String × String) → Option String
  | [] => none
  | (f, _) :: rest => if f ∈ names then findBadRelyPair names rest else some f

/-- Scan all supplied lives for an override key that is not a tagged field. -/
def findBadRely (names : List String) : List Live → Option String
  | [] => none
  | live :: rest =>
    match findBadRelyPair names live.RelyLives with
    | some f => some f
    | none => findBadRely names rest

mutual

/-- `register` (`register.go`): bind the type to its type identifier (a
no-op returning early if this exact type is already bound), register its
factory, then walk the underlying struct's fields, and finally check every
live-override key against the tagged field names. -/
def register (w : World) (fuel : Nat) (m : Manager)
    (param : RegisterBrickParam) : (Except Err Unit) × Manager :=
  match fuel with
  | 0 => (.error .fuelOut, m)
  | fuel' + 1 =>
    match m.setBrickTypeID param.ReflectType param.TypeID with
    | (false, m1) => (.ok (), m1)
    | (true, m1) =>
      let m2 := match param.BrickFactory with
        | some fac =>
          { m1 with brickFactories := (param.TypeID, fac) :: m1.brickFactories }
        | none => m1
      let ownerName := baseNameOf param.ReflectType
      match alookup ownerName w.structs with
      | none => (.ok (), m2)
      | some info =>
        match registerFields w fuel' m2 ownerName [] info.fields with
        | (.error e, m3, _) => (.error e, m3)
        | (.ok _, m3, names) =>
          match findBadRely names param.Lives with
          | some f => (.error (.fieldNotBrick f ownerName), m3)
          | none => (.ok (), m3)

/-- The field loop of `register`: skip fields whose fully dereferenced type
is not a struct and fields without a `brick` tag; for tagged struct fields,
record the field name, declare a non-default explicit live identity from the
tag, fail fatally when the field's type implements `Brick` neither as a
value nor through one pointer, and otherwise register the dependency
transitively (with its factory and lives when it implements `BrickNewer` /
`BrickLives`). -/
def registerFields (w : World) (fuel : Nat) (m : Manager) (ownerName : String)
    (names : List String) (fields : List FieldInfo) :
    (Except Err Unit) × Manager × List String :=
  match fuel with
  | 0 => (.error .fuelOut, m, names)
  | fuel' + 1 =>
    match fields with
    | [] => (.ok (), m, names)
    | fld :: rest =>
      let fieldBase := baseNameOf fld.typ
      match alookup fieldBase w.structs with
      | none => registerFields w fuel' m ownerName names rest
      | some _ =>
        match fld.tag with
        | none => registerFields w fuel' m ownerName names rest
        | some tag =>
          let names' := fld.name :: names
          match parseTag tag with
          | (liveID, typeID, isClone, _) =>
            let m1 :=
              if ¬isClone ∧ liveID ≠ typeID ∧ liveID ≠ "" then
                m.setDeclaredLiveID liveID
              else m
            let imp := w.valueImpl.contains fieldBase
            let ptrImp := w.ptrImpl fieldBase
            if ¬imp ∧ ¬ptrImp then
              (.error (.fieldNotBrick fld.name ownerName), m1, names')
            else
              let registerType :=
                if ptrImp then GoType.ptr (.base fieldBase) else .base fieldBase
              let param : RegisterBrickParam :=
                { TypeID := w.typeIDOf fieldBase
                  ReflectType := registerType
                  Lives := (alookup fieldBase w.lives).getD []
                  BrickFactory := alookup fieldBase w.newer }
              match register w fuel' m1 param with
              | (.error e, m2) => (.error e, m2, names')
              | (.ok _, m2) => registerFields w fuel' m2 ownerName names' rest

end

/-! # Theorems

## Claim C5: the tag descriptor parser -/

/-- The tag parser as the specification describes it, at the character-list
level: `random` and `clone` are special; `clone:X` yields live identity `X`
(the whole remainder after the colon) with empty type identifier; any other
tag splits at commas, the live identity being the text before the first
comma and the type identifier the second comma-separated component if
present. -/
def parseTagSpecL (tag : List Char) : List Char × List Char × Bool × Bool :=
  if tag = randomChars then ([], [], false, true)
  else if tag = cloneChars then ([], [], true, false)
  else if goHasPrefix tag cloneColon then (tag.drop 6, [], true, false)
  else
    (tag.takeWhile (fun c => c ≠ ','),
     (if (splitComma tag).length ≥ 2 then (splitComma tag).getD 1 [] else []),
     false, false)

/-- The claim's description of `parseTag`, on strings. -/
def parseTagSpec (tag : String) : String × String × Bool × Bool :=
  match parseTagSpecL tag.data with
  | (l, t, c, r) => (String.mk l, String.mk t, c, r)

/-- The amended description, differing from `parseTagSpecL` only where the
counterexample forces it: in the `clone:X` case the live identity is the
part of `X` before the first comma, reset to empty when that part is the
literal `clone`, and the type identifier is the second comma-separated
component of the whole tag. -/
def parseTagSpecAmendedL (tag : List Char) : List Char × List Char × Bool × Bool :=
  if tag = randomChars then ([], [], false, true)
  else if tag = cloneChars then ([], [], true, false)
  else if goHasPrefix tag cloneColon then
    let x := (tag.drop 6).takeWhile (fun c => c ≠ ',')
    ((if x = cloneChars then [] else x),
     (if (splitComma tag).length ≥ 2 then (splitComma tag).getD 1 [] else []),
     true, false)
  else
    (tag.takeWhile (fun c => c ≠ ','),
     (if (splitComma tag).length ≥ 2 then (splitComma tag).getD 1 [] else []),
     false, false)

/-- The amended description, on strings. -/
def parseTagSpecAmended (tag : String) : String × String × Bool × Bool :=
  match parseTagSpecAmendedL tag.data with
  | (l, t, c, r) => (String.mk l, String.mk t, c, r)

/-- The first comma-separated fragment is the text before the first comma. -/
theorem splitComma_headD (l : List Char) :
    (splitComma l).headD [] = l.takeWhile (fun c => c ≠ ',') := by
  induction l with
  | nil => rfl
  | cons c rest ih =>
    simp only [splitComma, List.takeWhile]
    by_cases hc : c = ','
    · subst hc
      simp
    · have hne := splitComma_ne_nil rest
      cases h : splitComma rest with
      | nil => exact absurd h hne
      | cons g gs =>
        rw [h] at ih
        simp only [List.headD] at ih
        simp [hc, h, ih]

/-- Splitting after a comma-free prefix keeps that prefix on the first
fragment. -/
theorem splitComma_append_headD (a s : List Char) (ha : ∀ c ∈ a, c ≠ ',') :
    (splitComma (a ++ s)).headD [] = a ++ (splitComma s).headD [] := by
  induction a with
  | nil => simp
  | cons c a' ih =>
    have hc : c ≠ ',' := ha c (by simp)
    have ha' : ∀ c ∈ a', c ≠ ',' := fun x hx => ha x (by simp [hx])
    have hne := splitComma_ne_nil (a' ++ s)
    simp only [List.cons_append, splitComma, if_neg hc]
    cases h : splitComma (a' ++ s) with
    | nil => exact absurd h hne
    | cons g gs =>
      have ih' := ih ha'
      rw [h] at ih'
      rw [List.headD_cons] at ih'
      simp [ih']

/-- `parseTag` satisfies the amended description on every tag. -/
theorem parseTagL_eq_amended (tag : List Char) :
    parseTagL tag = parseTagSpecAmendedL tag := by
  by_cases hr : tag = randomChars
  · subst hr; rfl
  · by_cases hcl : tag = cloneChars
    · subst hcl; rfl
    · by_cases hpre : goHasPrefix tag cloneColon
      · have hp : cloneColon <+: tag := of_decide_eq_true hpre
        obtain ⟨rest, hrest⟩ := hp
        subst hrest
        have hhead :
            (splitComma (cloneColon ++ rest)).headD [] =
              cloneColon ++ rest.takeWhile (fun c => c ≠ ',') := by
          rw [splitComma_append_headD cloneColon rest (by decide),
            splitComma_headD]
        have hdrop : (cloneColon ++ rest).drop 6 = rest := by
          have h6 : cloneColon.length = 6 := by decide
          rw [← h6, List.drop_left]
        have htrim :
            goTrimPrefix (cloneColon ++ rest.takeWhile (fun c => c ≠ ',')) cloneColon
              = rest.takeWhile (fun c => c ≠ ',') := by
          have h6 : cloneColon.length = 6 := by decide
          simp only [goTrimPrefix, goHasPrefix,
            decide_eq_true (List.prefix_append cloneColon _), if_true, h6]
          rw [← h6, List.drop_left]
        simp only [parseTagL, parseTagSpecAmendedL, if_neg hr, if_neg hcl,
          hpre, Bool.true_or, if_true, hdrop, hhead, htrim]
      · have hb : goHasPrefix tag cloneColon = false := by
          simpa using hpre
        have hcl' : decide (tag = cloneChars) = false := by
          simp [hcl]
        simp only [parseTagL, parseTagSpecAmendedL, if_neg hr, if_neg hcl,
          hb, hcl', Bool.false_or, Bool.false_eq_true, if_false,
          splitComma_headD]

/-- C5, counterexample.  The claim asserts
`parseTag ("clone:" ++ X) = (X, "", true, false)` for every non-empty `X`
(formalised as `parseTagSpec`), but the source resets the live identity to
empty when the trimmed remainder is the literal `clone`, and it still splits
the whole tag at commas: at `"clone:clone"` the source yields live identity
`""` where the claim demands `"clone"`, and at `"clone:a,b"` the source
yields `("a", "b")` where the claim demands `("a,b", "")`. -/
theorem parseTag_claim_counterexample :
    parseTag "clone:clone" = ("", "", true, false) ∧
      parseTagSpec "clone:clone" = ("clone", "", true, false) ∧
      parseTag "clone:clone" ≠ parseTagSpec "clone:clone" ∧
      parseTag "clone:a,b" = ("a", "b", true, false) ∧
      parseTagSpec "clone:a,b" = ("a,b", "", true, false) ∧
      parseTag "clone:a,b" ≠ parseTagSpec "clone:a,b" := by
  refine ⟨by decide, by decide, by decide, by decide, by decide, by decide⟩

/-- C5, amended: the tag parser is a pure function with
`parseTag "random" = ("", "", false, true)`,
`parseTag "clone" = ("", "", true, false)`,
`parseTag "" = ("", "", false, false)`, and on a tag starting with
`"clone:"` the live identity is the text between the colon and the first
comma (empty if that text is the literal `clone`), the type identifier is
the second comma-separated component, and the clone flag is set; on every
other tag the live identity is the text before the first comma and the type
identifier the second comma-separated component if present, with both flags
false.  This is `parseTagSpecAmended`, and `parseTag` equals it on every
tag. -/
theorem parseTag_eq_spec_amended (tag : String) :
    parseTag tag = parseTagSpecAmended tag := by
  unfold parseTag parseTagSpecAmended
  rw [parseTagL_eq_amended]

/-! ## Claim C8: re-registering a bound type identifier -/

/-- A world with two field-less struct types whose `BrickTypeID` methods
both return `"X"`. -/
def twoTypesW : World :=
  { structs := [("T1", ⟨[]⟩), ("T2", ⟨[]⟩)]
    valueImpl := []
    ptrOnlyImpl := ["T1", "T2"]
    typeIDs := [("T1", "X"), ("T2", "X")]
    newer := []
    lives := [] }

/-- The manager after registering `*T1` under type identifier `"X"`. -/
def twoTypesM1 : Manager :=
  (register twoTypesW 10 initManager
    { TypeID := "X", ReflectType := .ptr (.base "T1"), Lives := []
      BrickFactory := none }).2

/-- C8, counterexample.  Registering the different type `*T2` under the
already-bound identifier `"X"` is *not* ignored: it raises no error, and it
overwrites the identifier-to-type reverse mapping, so `"X"` afterwards
resolves to `*T2`, not to the first-registered `*T1`. -/
theorem register_overwrite_counterexample :
    (register twoTypesW 10 twoTypesM1
        { TypeID := "X", ReflectType := .ptr (.base "T2"), Lives := []
          BrickFactory := none }).1 = .ok () ∧
      twoTypesM1.getBrickType "X" = some (.ptr (.base "T1")) ∧
      (register twoTypesW 10 twoTypesM1
          { TypeID := "X", ReflectType := .ptr (.base "T2"), Lives := []
            BrickFactory := none }).2.getBrickType "X" = some (.ptr (.base "T2")) ∧
      GoType.ptr (.base "T2") ≠ GoType.ptr (.base "T1") := by
  refine ⟨rfl, by decide, by decide, by decide⟩

/-- C8, amended: registering a second, different concrete type under an
already-bound type identifier raises no error, but it is not ignored either:
the new type is bound in the type-to-identifier map and the
identifier-to-type reverse mapping is overwritten, so the identifier
thereafter resolves to the second-registered type (the first type's own
binding in the forward map is untouched).  Only re-registering the *same*
type is a no-op.  Formally: (a) `setBrickTypeID` on a type not yet in the
forward map succeeds and rebinds the reverse map unconditionally; (b) a full
`register` call for a fresh, dependency-free type succeeds and leaves the
reverse map pointing at it; (c) `register` on an already-bound type returns
immediately with the manager unchanged. -/
theorem register_same_typeID_overwrites (m : Manager) (w : World)
    (fuel : Nat) (typ2 : GoType) (tid : String)
    (hfresh : m.getBrickTypeID typ2 = none)
    (param : RegisterBrickParam)
    (hp1 : param.TypeID = tid) (hp2 : param.ReflectType = typ2)
    (hdep : (∃ info, alookup (baseNameOf typ2) w.structs = some info ∧
        info.fields = []) ∧ param.Lives = []) :
    ((m.setBrickTypeID typ2 tid).1 = true ∧
        (m.setBrickTypeID typ2 tid).2.getBrickType tid = some typ2 ∧
        (m.setBrickTypeID typ2 tid).2.getBrickTypeID typ2 = some tid ∧
        ∀ t, t ≠ typ2 →
          (m.setBrickTypeID typ2 tid).2.getBrickTypeID t = m.getBrickTypeID t) ∧
      ((register w (fuel + 2) m param).1 = .ok () ∧
        (register w (fuel + 2) m param).2.getBrickType tid =
          some typ2) ∧
      (∀ m' : Manager, ∀ tid0, m'.getBrickTypeID typ2 = some tid0 →
        register w (fuel + 2) m' param = (.ok (), m')) := by
  subst hp1; subst hp2
  obtain ⟨⟨info, hinfo, hflds⟩, hlives⟩ := hdep
  unfold Manager.getBrickTypeID at hfresh
  refine ⟨⟨?_, ?_, ?_, ?_⟩, ⟨?_, ?_⟩, ?_⟩
  · simp [Manager.setBrickTypeID, hfresh]
  · simp [Manager.setBrickTypeID, hfresh, Manager.getBrickType, alookup]
  · simp [Manager.setBrickTypeID, hfresh, Manager.getBrickTypeID, alookup]
  · intro t ht
    simp only [Manager.setBrickTypeID, hfresh, Option.isSome_none,
      Bool.false_eq_true, if_false, Manager.getBrickTypeID, alookup_cons]
    rw [if_neg (fun h => ht h.symm)]
  · simp only [register, Manager.setBrickTypeID, hfresh, Option.isSome_none,
      Bool.false_eq_true, if_false, hinfo, hflds, hlives]
    cases param.BrickFactory <;> simp [registerFields, findBadRely]
  · simp only [register, Manager.setBrickTypeID, hfresh, Option.isSome_none,
      Bool.false_eq_true, if_false, hinfo, hflds, hlives]
    cases param.BrickFactory <;>
      simp [registerFields, findBadRely, Manager.getBrickType, alookup]
  · intro m' tid0 hbound
    unfold Manager.getBrickTypeID at hbound
    simp [register, Manager.setBrickTypeID, hbound]

/-- C8, witness: the amended theorem applied to the concrete two-type
world. -/
theorem register_same_typeID_overwrites_witness :
    ((twoTypesM1.setBrickTypeID (.ptr (.base "T2")) "X").1 = true ∧
        (twoTypesM1.setBrickTypeID (.ptr (.base "T2")) "X").2.getBrickType "X" =
          some (.ptr (.base "T2")) ∧
        (twoTypesM1.setBrickTypeID (.ptr (.base "T2")) "X").2.getBrickTypeID
            (.ptr (.base "T2")) = some "X" ∧
        ∀ t, t ≠ GoType.ptr (.base "T2") →
          (twoTypesM1.setBrickTypeID (.ptr (.base "T2")) "X").2.getBrickTypeID t =
            twoTypesM1.getBrickTypeID t) ∧
      ((register twoTypesW 10 twoTypesM1
          { TypeID := "X", ReflectType := .ptr (.base "T2"), Lives := []
            BrickFactory := none }).1 = .ok () ∧
        (register twoTypesW 10 twoTypesM1
            { TypeID := "X", ReflectType := .ptr (.base "T2"), Lives := []
              BrickFactory := none }).2.getBrickType "X" =
          some (.ptr (.base "T2"))) ∧
      (∀ m' : Manager, ∀ tid0,
        m'.getBrickTypeID (.ptr (.base "T2")) = some tid0 →
        register twoTypesW 10 m'
            { TypeID := "X", ReflectType := .ptr (.base "T2"), Lives := []
              BrickFactory := none } = (.ok (), m')) :=
  register_same_typeID_overwrites twoTypesM1 twoTypesW 8 (.ptr (.base "T2")) "X"
    (by decide) _ rfl rfl ⟨⟨⟨[]⟩, by decide, rfl⟩, rfl⟩

/-! ## Claim C7: registration-time check of dependency fields -/

/-- A world whose `Owner` struct carries a `brick`-tagged field of the
non-struct type `int`.  `int` implements `Brick` in no way. -/
def intFieldW : World :=
  { structs := [("Owner", ⟨[⟨"X", .base "int", some "", true⟩]⟩)]
    valueImpl := []
    ptrOnlyImpl := ["Owner"]
    typeIDs := [("Owner", "O")]
    newer := []
    lives := [] }

/-- C7, counterexample.  Registering `Owner` succeeds even though its tagged
field `X` has a type that implements `Brick` neither directly nor through a
pointer: the source `continue`s past any tagged field whose fully
dereferenced type is not a struct kind before reaching the Brick check, so
the field is silently skipped rather than rejected. -/
theorem register_skips_nonstruct_tagged_counterexample :
    (register intFieldW 10 initManager
        { TypeID := "O", ReflectType := .ptr (.base "Owner"), Lives := []
          BrickFactory := none }).1 = .ok () ∧
      alookup "Owner" intFieldW.structs =
        some ⟨[⟨"X", .base "int", some "", true⟩]⟩ ∧
      alookup "int" intFieldW.structs = none ∧
      intFieldW.valueImpl.contains "int" = false ∧
      intFieldW.ptrImpl "int" = false :=
  ⟨rfl, by decide, by decide, by decide, by decide⟩

/-- If the field walk of registration succeeds, every tagged field whose
fully dereferenced type is a struct kind implements `Brick` as a value or
through a pointer. -/
theorem registerFields_ok_impl (w : World) (owner : String) :
    ∀ (fields : List FieldInfo) (fuel : Nat) (m : Manager) (names : List String),
      (registerFields w fuel m owner names fields).1 = .ok () →
      ∀ fld ∈ fields, fld.tag.isSome = true →
        (alookup (baseNameOf fld.typ) w.structs).isSome = true →
        (w.valueImpl.contains (baseNameOf fld.typ) ||
          w.ptrImpl (baseNameOf fld.typ)) = true := by
  intro fields
  induction fields with
  | nil => intro fuel m names h fld hmem; simp at hmem
  | cons fld rest ih =>
    intro fuel m names h fld' hmem htag hstruct
    match fuel with
    | 0 => simp [registerFields] at h
    | fuel + 1 =>
      rw [List.mem_cons] at hmem
      simp only [registerFields] at h
      split at h
      case _ hs =>
        rcases hmem with rfl | hmem
        · rw [hs] at hstruct; simp at hstruct
        · exact ih _ _ _ h fld' hmem htag hstruct
      case _ info hs =>
        split at h
        case _ ht =>
          rcases hmem with rfl | hmem
          · rw [ht] at htag; simp at htag
          · exact ih _ _ _ h fld' hmem htag hstruct
        case _ tg ht =>
          split at h
          case _ himp => simp at h
          case _ himp =>
            split at h
            case _ e m2 hreg => simp at h
            case _ a m2 hreg =>
              rcases hmem with rfl | hmem
              · simp only [Bool.or_eq_true]
                by_contra hcon
                push_neg at hcon
                exact himp ⟨hcon.1, hcon.2⟩
              · exact ih _ _ _ h fld' hmem htag hstruct

/-- C7, amended: for every type being registered (not already bound) whose
underlying struct is known, (a) if registration succeeds then every
`brick`-tagged field whose fully dereferenced type is a *struct* kind
implements `Brick` directly or through one pointer — such a field can never
be accepted silently; and (b) when the first field is tagged, of struct
kind, and implements `Brick` neither way, registration fails fatally with an
error naming that field and the owning type.  Tagged fields whose underlying
type is *not* a struct kind (e.g. `int` or interface fields) are silently
skipped by the walk — this is the part of the original claim that the
counterexample refutes. -/
theorem register_checks_struct_kind_fields (w : World) (fuel : Nat)
    (m : Manager) (param : RegisterBrickParam) (info : StructInfo)
    (hfresh : m.getBrickTypeID param.ReflectType = none)
    (hinfo : alookup (baseNameOf param.ReflectType) w.structs = some info) :
    ((register w (fuel + 1) m param).1 = .ok () →
      ∀ fld ∈ info.fields, fld.tag.isSome = true →
        (alookup (baseNameOf fld.typ) w.structs).isSome = true →
        (w.valueImpl.contains (baseNameOf fld.typ) ||
          w.ptrImpl (baseNameOf fld.typ)) = true) ∧
    (∀ fld rest tg, info.fields = fld :: rest → fld.tag = some tg →
      (alookup (baseNameOf fld.typ) w.structs).isSome = true →
      w.valueImpl.contains (baseNameOf fld.typ) = false →
      w.ptrImpl (baseNameOf fld.typ) = false →
      (register w (fuel + 2) m param).1 =
        .error (.fieldNotBrick fld.name (baseNameOf param.ReflectType))) := by
  unfold Manager.getBrickTypeID at hfresh
  constructor
  · intro h fld hmem htag hstruct
    simp only [register, Manager.setBrickTypeID, hfresh, Option.isSome_none,
      Bool.false_eq_true, if_false, hinfo] at h
    rcases hrf : registerFields w fuel
        (match param.BrickFactory with
          | some fac =>
            { m with map1 := (param.ReflectType, param.TypeID) :: m.map1
                     map2 := (param.TypeID, param.ReflectType) :: m.map2
                     brickFactories := (param.TypeID, fac) :: m.brickFactories }
          | none =>
            { m with map1 := (param.ReflectType, param.TypeID) :: m.map1
                     map2 := (param.TypeID, param.ReflectType) :: m.map2 })
        (baseNameOf param.ReflectType) [] info.fields with ⟨res, m3, names⟩
    cases param.BrickFactory <;> rw [hrf] at h <;>
      cases res with
      | error e => simp at h
      | ok u =>
        exact registerFields_ok_impl w (baseNameOf param.ReflectType)
          info.fields fuel _ [] (by rw [hrf]) fld hmem htag hstruct
  · intro fld rest tg hflds htg hstruct hv hp
    obtain ⟨info2, hinfo2⟩ := Option.isSome_iff_exists.mp hstruct
    simp only [register, Manager.setBrickTypeID, hfresh, Option.isSome_none,
      Bool.false_eq_true, if_false, hinfo, hflds]
    have hrf : ∀ m' : Manager,
        (registerFields w (fuel + 1) m' (baseNameOf param.ReflectType) []
          (fld :: rest)) =
        (.error (.fieldNotBrick fld.name (baseNameOf param.ReflectType)),
          (if ¬(parseTag tg).2.2.1 ∧ (parseTag tg).1 ≠ (parseTag tg).2.1 ∧
              (parseTag tg).1 ≠ "" then
            m'.setDeclaredLiveID (parseTag tg).1 else m'), [fld.name]) := by
      intro m'
      rcases hpt : parseTag tg with ⟨l, ty, ic, ir⟩
      simp only [registerFields, hinfo2, htg, hpt]
      rw [if_pos ⟨by rw [hv]; exact Bool.false_ne_true,
        by rw [hp]; exact Bool.false_ne_true⟩]
    cases param.BrickFactory <;> simp only [hrf]

/-- A world whose first field is tagged, of struct kind and not a brick. -/
def badFieldW : World :=
  { structs := [("Owner2", ⟨[⟨"Y", .base "Plain", some "", true⟩]⟩), ("Plain", ⟨[]⟩)]
    valueImpl := []
    ptrOnlyImpl := ["Owner2"]
    typeIDs := [("Owner2", "O2")]
    newer := []
    lives := [] }

/-- C7, witness: the amended theorem applied to the concrete world whose
first field is a tagged struct-kind non-brick. -/
theorem register_checks_struct_kind_fields_witness :
    ((register badFieldW 9 initManager
        { TypeID := "O2", ReflectType := .ptr (.base "Owner2"), Lives := []
          BrickFactory := none }).1 = .ok () →
      ∀ fld ∈ (StructInfo.mk [⟨"Y", .base "Plain", some "", true⟩]).fields,
        fld.tag.isSome = true →
        (alookup (baseNameOf fld.typ) badFieldW.structs).isSome = true →
        (badFieldW.valueImpl.contains (baseNameOf fld.typ) ||
          badFieldW.ptrImpl (baseNameOf fld.typ)) = true) ∧
    (∀ fld rest tg,
      (StructInfo.mk [⟨"Y", .base "Plain", some "", true⟩]).fields = fld :: rest →
      fld.tag = some tg →
      (alookup (baseNameOf fld.typ) badFieldW.structs).isSome = true →
      badFieldW.valueImpl.contains (baseNameOf fld.typ) = false →
      badFieldW.ptrImpl (baseNameOf fld.typ) = false →
      (register badFieldW 10 initManager
          { TypeID := "O2", ReflectType := .ptr (.base "Owner2"), Lives := []
            BrickFactory := none }).1 =
        .error (.fieldNotBrick fld.name
          (baseNameOf (GoType.ptr (.base "Owner2"))))) :=
  register_checks_struct_kind_fields badFieldW 8 initManager
    { TypeID := "O2", ReflectType := .ptr (.base "Owner2"), Lives := []
      BrickFactory := none }
    ⟨[⟨"Y", .base "Plain", some "", true⟩]⟩ (by decide) (by decide)

/-! ## The scenario world of spec section 8

`Leaf` (type identifier `"L"`, no dependencies) and `Root` (type identifier
`"R"`) with one dependency field of type `*Leaf` carrying the default
annotation.  Both types implement `Brick` through pointer receivers, so the
registered shapes are `*Leaf` and `*Root`. -/

/-- The `Leaf`/`Root` world. -/
def scenW : World :=
  { structs := [("Leaf", ⟨[]⟩),
                ("Root", ⟨[⟨"L", .ptr (.base "Leaf"), some "", true⟩]⟩)]
    valueImpl := []
    ptrOnlyImpl := ["Leaf", "Root"]
    typeIDs := [("Leaf", "L"), ("Root", "R")]
    newer := []
    lives := [] }

/-- The registered shape of `Root`. -/
def rootT : GoType := .ptr (.base "Root")

/-- The registered shape of `Leaf`. -/
def leafT : GoType := .ptr (.base "Leaf")

/-- The manager after `Register[*Root]()`. -/
def scenM : Manager :=
  (register scenW 10 initManager
    { TypeID := "R", ReflectType := rootT, Lives := [], BrickFactory := none }).2

/-- The scenario manager with one ingested configuration entry for the
default `Root` instance, payload reference `7`. -/
def scenMC : Manager :=
  scenM.setBrickConfig "R"
    { TypeID := "R", LiveID := "R", noCheck := true, Config := some 7 }

/-! ## Claim C9: `CloneConfig` -/

/-- C9: `CloneConfig` first resolves the source identity (the explicit
argument, or the type's own type identifier), then draws a fresh live
identity from the oracle.  When the source has a configuration entry, the
call returns the new identity and the new state: the entry is re-registered
under the new identity with its `LiveID` field overwritten to the new
identity and its `TypeID` and payload reference (`Config`) equal to the
source's — the payload is shared, not copied — the new identity is marked
declared, and the instance cache (indeed everything except the config store,
the declared set and the oracle counter) is untouched: no instance is
constructed or cached.  When the source has no configuration entry, the call
fails fatally and changes nothing but the oracle counter. -/
theorem CloneConfig_contract (w : World) (m : Manager) (t : GoType)
    (liveID cloneId : String)
    (hsrc : (if liveID ≠ "" then Except.ok liveID
        else getTypeIDByReflectType w t) = Except.ok cloneId) :
    (∀ cfg, m.getBrickConfig cloneId = some cfg →
      CloneConfig w m t liveID =
        (.ok (randomLiveID m.randCounter),
          { m with
              brickConfigs := (randomLiveID m.randCounter,
                { cfg with LiveID := randomLiveID m.randCounter }) ::
                  m.brickConfigs
              declaredLiveIDs := randomLiveID m.randCounter :: m.declaredLiveIDs
              randCounter := m.randCounter + 1 }) ∧
      ({ cfg with LiveID := randomLiveID m.randCounter }).TypeID = cfg.TypeID ∧
      ({ cfg with LiveID := randomLiveID m.randCounter }).Config = cfg.Config) ∧
    (m.getBrickConfig cloneId = none →
      CloneConfig w m t liveID =
        (.error (.noConfigForLiveID cloneId),
          { m with randCounter := m.randCounter + 1 })) := by
  unfold Manager.getBrickConfig
  constructor
  · intro cfg hcfg
    refine ⟨?_, rfl, rfl⟩
    simp only [CloneConfig, hsrc, Manager.freshRandom, Manager.getBrickConfig,
      Manager.setBrickConfig, Manager.setDeclaredLiveID]
    rw [hcfg]
  · intro hcfg
    simp only [CloneConfig, hsrc, Manager.freshRandom, Manager.getBrickConfig]
    rw [hcfg]

/-- C9, witness: cloning the default `Root` configuration in the scenario
world. -/
theorem CloneConfig_contract_witness :
    (∀ cfg, scenMC.getBrickConfig "R" = some cfg →
      CloneConfig scenW scenMC rootT "" =
        (.ok (randomLiveID scenMC.randCounter),
          { scenMC with
              brickConfigs := (randomLiveID scenMC.randCounter,
                { cfg with LiveID := randomLiveID scenMC.randCounter }) ::
                  scenMC.brickConfigs
              declaredLiveIDs :=
                randomLiveID scenMC.randCounter :: scenMC.declaredLiveIDs
              randCounter := scenMC.randCounter + 1 }) ∧
      ({ cfg with LiveID := randomLiveID scenMC.randCounter }).TypeID =
        cfg.TypeID ∧
      ({ cfg with LiveID := randomLiveID scenMC.randCounter }).Config =
        cfg.Config) ∧
    (scenMC.getBrickConfig "R" = none →
      CloneConfig scenW scenMC rootT "" =
        (.error (.noConfigForLiveID "R"),
          { scenMC with randCounter := scenMC.randCounter + 1 })) :=
  CloneConfig_contract scenW scenMC rootT "" "R" rfl

/-! ## Engine invariants

A single induction over the engine's recursion establishes, for every
function of the mutual block: the type registry, factory table and
declared-live-ID set are never written during resolution; the config-store
invariant "every entry's `LiveID` equals its key" is preserved (the only
config write in resolution is `cloneBrick`'s `setBrickConfig`, which
enforces it); the `configLiveIDMismatch` error is unreachable from a state
satisfying the invariant; and with create-if-missing on, the `notDeclared`
error is unreachable. -/

/-- The config store invariant: each stored entry's `LiveID` field equals
the key it is stored under. -/
def ConfigsOK (m : Manager) : Prop :=
  ∀ k c, alookup k m.brickConfigs = some c → c.LiveID = k

/-- Resolution does not write the type maps, factory table, or
declared-live-ID set. -/
def RegistryPres (m m' : Manager) : Prop :=
  m'.map1 = m.map1 ∧ m'.map2 = m.map2 ∧
    m'.brickFactories = m.brickFactories ∧
    m'.declaredLiveIDs = m.declaredLiveIDs

theorem RegistryPres.refl (m : Manager) : RegistryPres m m := ⟨rfl, rfl, rfl, rfl⟩

theorem RegistryPres.trans {m1 m2 m3 : Manager} (h1 : RegistryPres m1 m2)
    (h2 : RegistryPres m2 m3) : RegistryPres m1 m3 :=
  ⟨h2.1.trans h1.1, h2.2.1.trans h1.2.1, h2.2.2.1.trans h1.2.2.1,
    h2.2.2.2.trans h1.2.2.2⟩

/-- The conclusions of the engine induction for one call with result `out`,
where `cu` is the caller's create-if-missing flag. -/
def ResOKE {α : Type} (m : Manager) (cu : Bool)
    (out : (Except Err α) × Manager) : Prop :=
  RegistryPres m out.2 ∧
  (ConfigsOK m → ConfigsOK out.2) ∧
  (ConfigsOK m → ∀ a b, out.1 ≠ .error (.configLiveIDMismatch a b)) ∧
  (cu = true → ∀ y, out.1 ≠ .error (.notDeclared y))

theorem ResOKE_same {α : Type} (m : Manager) (cu : Bool) (r : Except Err α)
    (h1 : ∀ a b, r ≠ .error (.configLiveIDMismatch a b))
    (h2 : cu = true → ∀ y, r ≠ .error (.notDeclared y)) :
    ResOKE m cu (r, m) :=
  ⟨RegistryPres.refl m, id, fun _ => h1, h2⟩

/-- `setBrickConfig` preserves the config-store invariant: the written entry
gets the key as its `LiveID`. -/
theorem ConfigsOK_setBrickConfig {m : Manager} (h : ConfigsOK m)
    (lid : String) (cfg : BrickConfig) : ConfigsOK (m.setBrickConfig lid cfg) := by
  intro k c
  simp only [Manager.setBrickConfig, alookup_cons]
  by_cases hk : lid = k
  · subst hk
    intro hc
    simp only [if_pos rfl] at hc
    cases hc
    rfl
  · rw [if_neg hk]
    exact h k c

theorem ResOKE_chain {α : Type} {m mid : Manager} {cu : Bool}
    {out : (Except Err α) × Manager}
    (hpre : RegistryPres m mid) (hcfg : ConfigsOK m → ConfigsOK mid)
    (h : ResOKE mid cu out) :
    ResOKE m cu out :=
  ⟨hpre.trans h.1, fun hc => h.2.1 (hcfg hc), fun hc => h.2.2.1 (hcfg hc),
    h.2.2.2⟩

theorem ResOKE_err_cast {α β : Type} {m mg : Manager} {cu : Bool} {e : Err}
    (h : ResOKE (α := α) m cu (Except.error e, mg)) :
    ResOKE (α := β) m cu (Except.error e, mg) :=
  ⟨h.1, h.2.1,
    fun hok a b hcon => h.2.2.1 hok a b (by rw [Except.error.inj hcon]),
    fun hcu y hcon => h.2.2.2 hcu y (by rw [Except.error.inj hcon])⟩

theorem ResOKE_cu_any {α : Type} {m : Manager} {cu : Bool}
    {out : (Except Err α) × Manager}
    (h : ResOKE m true out) : ResOKE m cu out :=
  ⟨h.1, h.2.1, h.2.2.1, fun _ => h.2.2.2 rfl⟩

/-- The engine induction: every function of the resolution block leaves the
registry untouched, preserves the config-store invariant, never reaches the
`configLiveIDMismatch` branch from an invariant-satisfying state, and never
raises `notDeclared` when create-if-missing is on. -/
theorem enginePreserves (w : World) : ∀ fuel : Nat,
    (∀ m ctx t lid,
      ResOKE m ctx.createUnknown (getBrickInstance w fuel m ctx t lid)) ∧
    (∀ m ctx t lid tid,
      ResOKE m ctx.createUnknown (getBrickCore w fuel m ctx t lid tid)) ∧
    (∀ m ctx' t target tid,
      ResOKE m ctx'.createUnknown (getBrickBuildDo w fuel m ctx' t target tid)) ∧
    (∀ m ctx b lid,
      ResOKE m ctx.createUnknown (injectBrick w fuel m ctx b lid)) ∧
    (∀ m ctx bl lid fields,
      ResOKE m ctx.createUnknown (injectFields w fuel m ctx bl lid fields)) ∧
    (∀ m t lid, ResOKE m true (cloneBrick w fuel m t lid)) := by
  intro fuel
  induction fuel with
  | zero =>
    refine ⟨?_, ?_, ?_, ?_, ?_, ?_⟩ <;> intros <;>
      exact ResOKE_same _ _ _ (fun a b => by simp) (fun h y => by simp)
  | succ fuel ih =>
    obtain ⟨ihGet, ihCore, ihBuild, ihInjB, ihInjF, ihClone⟩ := ih
    refine ⟨?_, ?_, ?_, ?_, ?_, ?_⟩
    · -- getBrickInstance
      intro m ctx t lid
      simp only [getBrickInstance]
      rcases h1 : m.getBrickTypeID t with _ | tid
      · cases t with
        | ptr inner =>
          rcases hscan : scanInnerTypeID m (GoType.ptr inner) with _ | tid2
          · exact ResOKE_same _ _ _ (fun a b => by simp) (fun h y => by simp)
          · exact ihCore m ctx _ lid _
        | base name =>
          rcases h2 : m.getBrickTypeID (GoType.ptr (.base name)) with _ | tid2
          · exact ResOKE_same _ _ _ (fun a b => by simp) (fun h y => by simp)
          · rcases hg : getBrickInstance w fuel m ctx (GoType.ptr (.base name)) lid with ⟨r, m2⟩
            have hih := ihGet m ctx (GoType.ptr (.base name)) lid
            rw [hg] at hih
            cases r with
            | ok v => exact ⟨hih.1, hih.2.1, fun _ => by simp, fun _ => by simp⟩
            | error e => exact ⟨hih.1, hih.2.1, hih.2.2.1, hih.2.2.2⟩
      · exact ihCore m ctx t lid tid
    · -- getBrickCore
      intro m ctx t lid tid
      simp only [getBrickCore]
      generalize (if lid ≠ "" then lid else tid) = target
      by_cases hcoll : target ≠ tid ∧ (m.getBrickType target).isSome = true
      · rw [if_pos hcoll]
        exact ResOKE_same _ _ _ (fun a b => by simp) (fun h y => by simp)
      · rw [if_neg hcoll]
        rcases hex : m.getBrickFromExist target with _ | brick
        · by_cases hdecl : ¬ctx.createUnknown = true ∧ target ≠ tid ∧
              ¬(m.getDeclaredLiveID target = true)
          · rw [if_pos hdecl]
            exact ResOKE_same _ _ _ (fun a b => by simp)
              (fun hcu => absurd hcu hdecl.1)
          · rw [if_neg hdecl]
            by_cases hcyc : t ∈ ctx.buildingBrick
            · rw [if_pos hcyc]
              exact ResOKE_same _ _ _ (fun a b => by simp) (fun h y => by simp)
            · rw [if_neg hcyc]
              exact ihBuild m _ t target tid
        · exact ResOKE_same _ _ _ (fun a b => by simp) (fun h y => by simp)
    · -- getBrickBuildDo
      intro m ctx' t target tid
      simp only [getBrickBuildDo]
      rcases hce : (match m.getBrickConfig target with
        | some cfg =>
          if cfg.LiveID ≠ target then
            some (Err.configLiveIDMismatch cfg.LiveID target)
          else if cfg.TypeID ≠ tid then
            some (Err.configTypeIDMismatch cfg.TypeID tid)
          else none
        | none => none) with _ | e
      · rw [hce]
        rcases hfac : m.getBrickFactory tid with _ | fac
        · simp only [createEmptyPtrInstance, Manager.alloc]
          rcases hj : injectBrick w fuel { m with allocCounter := m.allocCounter + 1 } ctx'
              ⟨baseNameOf t, Nat.max 1 (getPointerLevel t), m.allocCounter⟩ target with ⟨rj, mj⟩
          have hih := ihInjB { m with allocCounter := m.allocCounter + 1 } ctx'
            ⟨baseNameOf t, Nat.max 1 (getPointerLevel t), m.allocCounter⟩ target
          rw [hj] at hih
          cases rj with
          | error e => exact ⟨hih.1, hih.2.1, hih.2.2.1, hih.2.2.2⟩
          | ok ret2 =>
            simp only [Manager.saveBrickInstance]
            by_cases hlvl : ret2.level = 0
            · rw [if_pos hlvl]
              exact ⟨hih.1, hih.2.1, fun _ => by simp, fun _ => by simp⟩
            · rw [if_neg hlvl]
              exact ⟨hih.1, hih.2.1, fun _ => by simp, fun _ => by simp⟩
        · simp only [invokeFactory, Manager.alloc]
          by_cases hsame : ¬ isSameBaseType
              (Value.goType ⟨fac.retBase, fac.retLevel, m.allocCounter⟩) t = true
          · rw [if_pos hsame]
            exact ⟨⟨rfl, rfl, rfl, rfl⟩, id, fun _ a b => by simp, fun _ y => by simp⟩
          · rw [if_neg hsame]
            rcases hj : injectBrick w fuel { m with allocCounter := m.allocCounter + 1 } ctx'
                (if fac.retLevel ≥ 1 then ⟨fac.retBase, fac.retLevel, m.allocCounter⟩
                 else wrapPointerLayer ⟨fac.retBase, fac.retLevel, m.allocCounter⟩)
                target with ⟨rj, mj⟩
            have hih := ihInjB { m with allocCounter := m.allocCounter + 1 } ctx'
              (if fac.retLevel ≥ 1 then ⟨fac.retBase, fac.retLevel, m.allocCounter⟩
               else wrapPointerLayer ⟨fac.retBase, fac.retLevel, m.allocCounter⟩) target
            rw [hj] at hih
            cases rj with
            | error e => exact ⟨hih.1, hih.2.1, hih.2.2.1, hih.2.2.2⟩
            | ok ret2 =>
              simp only [Manager.saveBrickInstance]
              by_cases hlvl : ret2.level = 0
              · rw [if_pos hlvl]
                exact ⟨hih.1, hih.2.1, fun _ => by simp, fun _ => by simp⟩
              · rw [if_neg hlvl]
                exact ⟨hih.1, hih.2.1, fun _ => by simp, fun _ => by simp⟩
      · rw [hce]
        refine ⟨⟨rfl, rfl, rfl, rfl⟩, id, ?_, ?_⟩
        · intro hok a b hcontra
          have he : e = Err.configLiveIDMismatch a b := Except.error.inj hcontra
          subst he
          split at hce
          · rename_i cfg hcfg
            split at hce
            · rename_i hmis
              unfold Manager.getBrickConfig at hcfg
              exact absurd (hok target cfg hcfg) hmis
            · split at hce
              · simp at hce
              · simp at hce
          · simp at hce
        · intro hcu y hcontra
          have he : e = Err.notDeclared y := Except.error.inj hcontra
          subst he
          split at hce
          · split at hce
            · simp at hce
            · split at hce
              · simp at hce
              · simp at hce
          · simp at hce
    · -- injectBrick
      intro m ctx b lid
      simp only [injectBrick]
      rcases hs : alookup b.baseName w.structs with _ | info
      · exact ResOKE_same _ _ _ (fun a b => by simp) (fun h y => by simp)
      · dsimp only
        rcases hf : injectFields w fuel m ctx
            (match getBrickLives w b.baseName with
              | some lives => lives.find? (fun live => decide (live.LiveID = lid))
              | none => none) lid info.fields with ⟨rf, mf⟩
        have hih := ihInjF m ctx
          (match getBrickLives w b.baseName with
            | some lives => lives.find? (fun live => decide (live.LiveID = lid))
            | none => none) lid info.fields
        rw [hf] at hih
        cases rf with
        | ok u =>
          dsimp only
          exact ⟨hih.1, hih.2.1, fun _ => by simp, fun _ => by simp⟩
        | error e =>
          dsimp only
          exact ResOKE_err_cast hih
    · -- injectFields
      intro m ctx bl lid fields
      simp only [injectFields]
      cases fields with
      | nil => exact ResOKE_same _ _ _ (fun a b => by simp) (fun h y => by simp)
      | cons fld rest =>
        dsimp only
        by_cases hcs : ¬ fld.canSet = true
        · rw [if_pos hcs]
          exact ihInjF m ctx bl lid rest
        · rw [if_neg hcs]
          rcases ht : fld.tag with _ | tag0
          · exact ihInjF m ctx bl lid rest
          · dsimp only
            generalize effectiveTag bl fld.name tag0 = tg
            by_cases hrand : (parseTag tg).2.2.2 = true
            · rw [if_pos hrand]
              simp only [Manager.freshRandom]
              rcases hg : getBrickInstance w fuel
                  { m with randCounter := m.randCounter + 1 }
                  { ctx with createUnknown := true } fld.typ
                  (randomLiveID m.randCounter) with ⟨rg, mg⟩
              have hih := ihGet { m with randCounter := m.randCounter + 1 }
                { ctx with createUnknown := true } fld.typ
                (randomLiveID m.randCounter)
              rw [hg] at hih
              cases rg with
              | error e =>
                dsimp only
                exact ResOKE_err_cast (ResOKE_cu_any hih)
              | ok v =>
                dsimp only
                exact ResOKE_chain hih.1 hih.2.1 (ihInjF mg ctx bl lid rest)
            · rw [if_neg hrand]
              by_cases hclone : (parseTag tg).2.2.1 = true
              · rw [if_pos hclone]
                rcases hcid : (if (parseTag tg).1 = "" then
                    m.getBrickTypeID fld.typ else some (parseTag tg).1) with _ | cloneID
                · exact ResOKE_same _ _ _ (fun a b => by simp) (fun h y => by simp)
                · dsimp only
                  rcases hc : cloneBrick w fuel m fld.typ cloneID with ⟨rc, mc⟩
                  have hih := ihClone m fld.typ cloneID
                  rw [hc] at hih
                  cases rc with
                  | error e =>
                    dsimp only
                    exact ResOKE_err_cast (ResOKE_cu_any hih)
                  | ok v =>
                    dsimp only
                    exact ResOKE_chain hih.1 hih.2.1 (ihInjF mc ctx bl lid rest)
              · rw [if_neg hclone]
                rcases hg : getBrickInstance w fuel m ctx fld.typ
                    (parseTag tg).1 with ⟨rg, mg⟩
                have hih := ihGet m ctx fld.typ (parseTag tg).1
                rw [hg] at hih
                cases rg with
                | error e =>
                  dsimp only
                  exact ResOKE_err_cast hih
                | ok v =>
                  dsimp only
                  exact ResOKE_chain hih.1 hih.2.1 (ihInjF mg ctx bl lid rest)
    · -- cloneBrick
      intro m t lid
      simp only [cloneBrick, Manager.freshRandom]
      rcases hcfg : ({ m with randCounter := m.randCounter + 1 } :
          Manager).getBrickConfig lid with _ | cfg
      · rcases hg : getBrickInstance w fuel
            { m with randCounter := m.randCounter + 1 }
            { buildingBrick := [], createUnknown := true } t
            (randomLiveID m.randCounter) with ⟨rg, mg⟩
        have hih := ihGet { m with randCounter := m.randCounter + 1 }
          { buildingBrick := [], createUnknown := true } t
          (randomLiveID m.randCounter)
        rw [hg] at hih
        cases rg with
        | error e => exact ⟨hih.1, hih.2.1, hih.2.2.1, fun _ => hih.2.2.2 rfl⟩
        | ok v => exact ⟨hih.1, hih.2.1, fun _ => by simp, fun _ => by simp⟩
      · rcases hg : getBrickInstance w fuel
            (({ m with randCounter := m.randCounter + 1 } :
              Manager).setBrickConfig (randomLiveID m.randCounter) cfg)
            { buildingBrick := [], createUnknown := true } t
            (randomLiveID m.randCounter) with ⟨rg, mg⟩
        have hih := ihGet
          (({ m with randCounter := m.randCounter + 1 } :
            Manager).setBrickConfig (randomLiveID m.randCounter) cfg)
          { buildingBrick := [], createUnknown := true } t
          (randomLiveID m.randCounter)
        rw [hg] at hih
        refine ResOKE_chain ?_ ?_ hih
        · exact ⟨rfl, rfl, rfl, rfl⟩
        · exact fun h => ConfigsOK_setBrickConfig
            (m := { m with randCounter := m.randCounter + 1 }) h _ _

/-! ## Claim C10: the config-store `LiveID` invariant -/

/-- Transport `ConfigsOK` along equality of the config stores. -/
theorem ConfigsOK_of_same {m m' : Manager}
    (h : m'.brickConfigs = m.brickConfigs) (hok : ConfigsOK m) :
    ConfigsOK m' := by
  intro k c hc
  rw [h] at hc
  exact hok k c hc

/-- `setBrickTypeID` never touches the config store. -/
theorem setBrickTypeID_configs (m : Manager) (t : GoType) (tid : String) :
    ((m.setBrickTypeID t tid).2).brickConfigs = m.brickConfigs := by
  unfold Manager.setBrickTypeID
  split <;> rfl

/-- Registration never writes the config store: neither `register` nor its
field loop touches `brickConfigs`. -/
theorem registerPreservesConfigs (w : World) : ∀ fuel : Nat,
    (∀ m p, ((register w fuel m p).2).brickConfigs = m.brickConfigs) ∧
    (∀ m o ns fs,
      ((registerFields w fuel m o ns fs).2.1).brickConfigs = m.brickConfigs) := by
  intro fuel
  induction fuel with
  | zero => exact ⟨fun m p => rfl, fun m o ns fs => rfl⟩
  | succ fuel ih =>
    obtain ⟨ihR, ihF⟩ := ih
    constructor
    · intro m p
      simp only [register]
      rcases hs : m.setBrickTypeID p.ReflectType p.TypeID with ⟨b, m1⟩
      have hm1 : m1.brickConfigs = m.brickConfigs := by
        have h0 := setBrickTypeID_configs m p.ReflectType p.TypeID
        rw [hs] at h0
        exact h0
      cases b
      · exact hm1
      · dsimp only
        have hm2 : (match p.BrickFactory with
            | some fac =>
              { m1 with
                  brickFactories := (p.TypeID, fac) :: m1.brickFactories }
            | none => m1).brickConfigs = m.brickConfigs := by
          cases p.BrickFactory <;> exact hm1
        cases alookup (baseNameOf p.ReflectType) w.structs with
        | none => exact hm2
        | some info =>
          dsimp only
          rcases hf : registerFields w fuel
              (match p.BrickFactory with
                | some fac =>
                  { m1 with
                      brickFactories := (p.TypeID, fac) :: m1.brickFactories }
                | none => m1) (baseNameOf p.ReflectType) [] info.fields with
            ⟨r, m3, names⟩
          have hm3 : m3.brickConfigs = m.brickConfigs := by
            have h0 := ihF (match p.BrickFactory with
                | some fac =>
                  { m1 with
                      brickFactories := (p.TypeID, fac) :: m1.brickFactories }
                | none => m1) (baseNameOf p.ReflectType) [] info.fields
            rw [hf] at h0
            exact h0.trans hm2
          cases r with
          | error e => exact hm3
          | ok u =>
            dsimp only
            cases findBadRely names p.Lives with
            | none => exact hm3
            | some f => exact hm3
    · intro m o ns fs
      simp only [registerFields]
      cases fs with
      | nil => rfl
      | cons fld rest =>
        dsimp only
        cases alookup (baseNameOf fld.typ) w.structs with
        | none => exact ihF m o ns rest
        | some info =>
          dsimp only
          cases fld.tag with
          | none => exact ihF m o ns rest
          | some tag =>
            dsimp only
            rcases hpt : parseTag tag with ⟨liveID, typeID, isClone, isRand⟩
            dsimp only
            have hm1 : (if ¬isClone ∧ liveID ≠ typeID ∧ liveID ≠ "" then
                m.setDeclaredLiveID liveID else m).brickConfigs =
                m.brickConfigs := by
              split <;> rfl
            by_cases himp : ¬w.valueImpl.contains (baseNameOf fld.typ) ∧
                ¬w.ptrImpl (baseNameOf fld.typ)
            · rw [if_pos himp]
              exact hm1
            · rw [if_neg himp]
              rcases hr : register w fuel
                  (if ¬isClone ∧ liveID ≠ typeID ∧ liveID ≠ "" then
                    m.setDeclaredLiveID liveID else m)
                  { TypeID := w.typeIDOf (baseNameOf fld.typ)
                    ReflectType :=
                      if w.ptrImpl (baseNameOf fld.typ) then
                        GoType.ptr (.base (baseNameOf fld.typ))
                      else .base (baseNameOf fld.typ)
                    Lives := (alookup (baseNameOf fld.typ) w.lives).getD []
                    BrickFactory := alookup (baseNameOf fld.typ) w.newer } with
                ⟨r, m2⟩
              have hm2 : m2.brickConfigs = m.brickConfigs := by
                have h0 := ihR (if ¬isClone ∧ liveID ≠ typeID ∧ liveID ≠ ""
                    then m.setDeclaredLiveID liveID else m)
                  { TypeID := w.typeIDOf (baseNameOf fld.typ)
                    ReflectType :=
                      if w.ptrImpl (baseNameOf fld.typ) then
                        GoType.ptr (.base (baseNameOf fld.typ))
                      else .base (baseNameOf fld.typ)
                    Lives := (alookup (baseNameOf fld.typ) w.lives).getD []
                    BrickFactory := alookup (baseNameOf fld.typ) w.newer }
                rw [hr] at h0
                exact h0.trans hm1
              cases r with
              | error e => exact hm2
              | ok u => exact (ihF m2 o (fld.name :: ns) rest).trans hm2

/-- The manager states reachable through the public API: the initial
package-level manager, closed under configuration ingestion (every write in
`addConfig` and the config-file save path goes through `setBrickConfig`),
live-identity declaration, live-identity type registration, registration,
resolution (`Get` / `GetOrCreate`), and configuration cloning. -/
inductive Reachable (w : World) : Manager → Prop where
  | init : Reachable w initManager
  | setConfig {m} (lid : String) (cfg : BrickConfig) :
      Reachable w m → Reachable w (m.setBrickConfig lid cfg)
  | declare {m} (lid : String) :
      Reachable w m → Reachable w (m.setDeclaredLiveID lid)
  | liveIDType {m} (lid : String) (t : GoType) :
      Reachable w m →
        Reachable w { m with liveIDTypeMap := (lid, t) :: m.liveIDTypeMap }
  | reg {m} (fuel : Nat) (p : RegisterBrickParam) :
      Reachable w m → Reachable w (register w fuel m p).2
  | get {m} (fuel : Nat) (t : GoType) (lid : String) :
      Reachable w m → Reachable w (Get w fuel m t lid).2
  | getOrCreate {m} (fuel : Nat) (t : GoType) (lid : String) :
      Reachable w m → Reachable w (GetOrCreate w fuel m t lid).2
  | clone {m} (t : GoType) (lid : String) :
      Reachable w m → Reachable w (CloneConfig w m t lid).2

/-- Every reachable manager state satisfies the config-store invariant:
each stored entry's `LiveID` equals the key it is stored under. -/
theorem reachable_ConfigsOK {w : World} :
    ∀ {m : Manager}, Reachable w m → ConfigsOK m := by
  intro m hm
  induction hm with
  | init =>
    intro k c hc
    simp [initManager, alookup] at hc
  | setConfig lid cfg _ ih => exact ConfigsOK_setBrickConfig ih lid cfg
  | declare lid _ ih => exact ConfigsOK_of_same rfl ih
  | liveIDType lid t _ ih => exact ConfigsOK_of_same rfl ih
  | reg fuel p _ ih =>
    exact ConfigsOK_of_same ((registerPreservesConfigs w fuel).1 _ p) ih
  | get fuel t lid _ ih =>
    rename_i m' _
    simp only [Get]
    cases checkConfig m' with
    | error e => exact ih
    | ok u =>
      exact ((enginePreserves w fuel).1 m'
        { buildingBrick := [], createUnknown := false } t lid).2.1 ih
  | getOrCreate fuel t lid _ ih =>
    rename_i m' _
    simp only [GetOrCreate]
    cases checkConfig m' with
    | error e => exact ih
    | ok u =>
      exact ((enginePreserves w fuel).1 m'
        { buildingBrick := [], createUnknown := true } t lid).2.1 ih
  | clone t lid _ ih =>
    rename_i m' _
    simp only [CloneConfig]
    cases hid : (if lid ≠ "" then Except.ok lid
        else getTypeIDByReflectType w t : Except Err String) with
    | error e => exact ih
    | ok cloneId =>
      simp only [Manager.freshRandom]
      cases hcfg : Manager.getBrickConfig
          { m' with randCounter := m'.randCounter + 1 } cloneId with
      | none => exact ConfigsOK_of_same rfl ih
      | some cfg =>
        exact ConfigsOK_of_same rfl
          (ConfigsOK_setBrickConfig
            (m := { m' with randCounter := m'.randCounter + 1 })
            (ConfigsOK_of_same rfl ih) _ _)

/-- C10: every write to the config store goes through `setBrickConfig`,
which overwrites the entry's `LiveID` field with the key it is stored under
(first conjunct: the write shape); hence on every reachable store state each
entry's `LiveID` equals its key (second conjunct), and the fatal
`configLiveIDMismatch` branch of the resolution path is unreachable: no call
to `getBrickInstance` on a reachable state can return that error (third
conjunct). -/
theorem configStore_liveID_invariant (w : World) (m : Manager)
    (hm : Reachable w m) :
    (∀ lid cfg,
      alookup lid ((m.setBrickConfig lid cfg).brickConfigs) =
        some { cfg with LiveID := lid }) ∧
    (∀ k c, alookup k m.brickConfigs = some c → c.LiveID = k) ∧
    (∀ fuel ctx t lid a b,
      (getBrickInstance w fuel m ctx t lid).1 ≠
        .error (.configLiveIDMismatch a b)) := by
  refine ⟨?_, reachable_ConfigsOK hm, ?_⟩
  · intro lid cfg
    simp [Manager.setBrickConfig, alookup_cons]
  · intro fuel ctx t lid a b
    exact ((enginePreserves w fuel).1 m ctx t lid).2.2.1
      (reachable_ConfigsOK hm) a b

/-- C10, witness: the invariant holds at the scenario state reached by
registering `*Root` and ingesting one configuration entry. -/
theorem configStore_liveID_invariant_witness :
    (∀ lid cfg,
      alookup lid ((scenMC.setBrickConfig lid cfg).brickConfigs) =
        some { cfg with LiveID := lid }) ∧
    (∀ k c, alookup k scenMC.brickConfigs = some c → c.LiveID = k) ∧
    (∀ fuel ctx t lid a b,
      (getBrickInstance scenW fuel scenMC ctx t lid).1 ≠
        .error (.configLiveIDMismatch a b)) :=
  configStore_liveID_invariant scenW scenMC
    (Reachable.setConfig "R"
      { TypeID := "R", LiveID := "R", noCheck := true, Config := some 7 }
      (Reachable.reg 10
        { TypeID := "R", ReflectType := rootT, Lives := [], BrickFactory := none }
        Reachable.init))

/-! ## Claim C4: the identity-collision check -/

/-- The scenario manager with an instance parked in the cache under `"L"`
(which is also `Leaf`'s type identifier). -/
def collisionM : Manager :=
  { scenM with instances := [("L", ⟨"Leaf", 1, 0⟩)] }

/-- C4: when the computed target live identity (the caller's argument, or
else the resolved type identifier) differs from the resolved type's own type
identifier but is registered as some type's type identifier, core resolution
fails with the identity-collision error and returns the manager unchanged.
No hypothesis about the instance cache is needed — the error wins even when
an instance is cached under the identity, so the check precedes the
fast path — and the returned state is untouched, so no construction
happened.  The second conjunct lifts the equation to `getBrickInstance`. -/
theorem collision_checked_first (w : World) (fuel : Nat) (m : Manager)
    (ctx : Ctx) (t : GoType) (lid tid : String)
    (hne : (if lid ≠ "" then lid else tid) ≠ tid)
    (hcol : (m.getBrickType (if lid ≠ "" then lid else tid)).isSome = true) :
    getBrickCore w (fuel + 1) m ctx t lid tid =
      (.error (.liveIDCollision (if lid ≠ "" then lid else tid)), m) ∧
    (m.getBrickTypeID t = some tid →
      getBrickInstance w (fuel + 2) m ctx t lid =
        (.error (.liveIDCollision (if lid ≠ "" then lid else tid)), m)) := by
  have hcore : getBrickCore w (fuel + 1) m ctx t lid tid =
      (.error (.liveIDCollision (if lid ≠ "" then lid else tid)), m) := by
    simp only [getBrickCore]
    rw [if_pos ⟨hne, hcol⟩]
  refine ⟨hcore, fun hreg => ?_⟩
  simp only [getBrickInstance, hreg]
  exact hcore

/-- C4, witness: requesting `Root` under live identity `"L"` — `Leaf`'s type
identifier — collides, even though an instance is cached under `"L"`. -/
theorem collision_checked_first_witness :
    ((if "L" ≠ "" then "L" else "R") : String) ≠ "R" ∧
    (collisionM.getBrickType (if "L" ≠ "" then "L" else "R")).isSome = true ∧
    collisionM.getBrickFromExist "L" = some ⟨"Leaf", 1, 0⟩ ∧
    (getBrickCore scenW 11 collisionM ⟨[], false⟩ rootT "L" "R" =
      (.error (.liveIDCollision (if "L" ≠ "" then "L" else "R")),
        collisionM) ∧
    (collisionM.getBrickTypeID rootT = some "R" →
      getBrickInstance scenW 12 collisionM ⟨[], false⟩ rootT "L" =
        (.error (.liveIDCollision (if "L" ≠ "" then "L" else "R")),
          collisionM))) :=
  ⟨by decide, by decide, by decide,
    collision_checked_first scenW 10 collisionM ⟨[], false⟩ rootT "L" "R"
      (by decide) (by decide)⟩

/-! ## Claim C3: the default live identity -/

/-- The type identifier a resolution of `t` on `m` will use: the registered
identifier of `t` itself, else (for a pointer type) of a dereferenced type,
else (for a base type) of the pointer to it — mirroring the lookup ladder at
the top of `getBrickInstance`. -/
def resolvedTypeID (m : Manager) (t : GoType) : Option String :=
  match m.getBrickTypeID t with
  | some tid => some tid
  | none =>
    match t with
    | .ptr _ => scanInnerTypeID m t
    | .base _ => m.getBrickTypeID (.ptr t)

/-- `scanInnerTypeID` reads only `map1`. -/
theorem scanInnerTypeID_congr {m m' : Manager} (h : m'.map1 = m.map1) :
    ∀ t, scanInnerTypeID m' t = scanInnerTypeID m t := by
  intro t
  induction t with
  | base n => rfl
  | ptr inner ih =>
    simp only [scanInnerTypeID, Manager.getBrickTypeID, h, ih]

/-- `resolvedTypeID` reads only `map1`. -/
theorem resolvedTypeID_congr {m m' : Manager} (h : m'.map1 = m.map1)
    (t : GoType) : resolvedTypeID m' t = resolvedTypeID m t := by
  cases t with
  | base n =>
    simp only [resolvedTypeID, Manager.getBrickTypeID, h]
  | ptr inner =>
    simp only [resolvedTypeID, Manager.getBrickTypeID, h,
      scanInnerTypeID_congr h]

/-- `getBrickCore` depends on the requested live identity only through the
computed target, so the empty identity and the type identifier itself are
interchangeable. -/
theorem getBrickCore_lid (w : World) (fuel : Nat) (m : Manager) (ctx : Ctx)
    (t : GoType) (tid : String) :
    getBrickCore w fuel m ctx t "" tid = getBrickCore w fuel m ctx t tid tid := by
  cases fuel with
  | zero => rfl
  | succ f =>
    simp only [getBrickCore]
    have h1 : (if ("" : String) ≠ "" then "" else tid) = tid :=
      if_neg (fun hc => hc rfl)
    have h2 : (if tid ≠ "" then tid else tid) = tid := ite_self tid
    rw [h1, h2]

/-- Requesting with the empty live identity and requesting with the resolved
type identifier are the same call. -/
theorem getBrickInstance_default_lid (w : World) (m : Manager) (ctx : Ctx) :
    ∀ (fuel : Nat) (t : GoType) (tid : String),
      resolvedTypeID m t = some tid →
      getBrickInstance w fuel m ctx t "" =
        getBrickInstance w fuel m ctx t tid := by
  intro fuel
  induction fuel with
  | zero => intro t tid h; rfl
  | succ f ih =>
    intro t tid h
    simp only [getBrickInstance]
    rcases h0 : m.getBrickTypeID t with _ | tid0
    · cases t with
      | ptr inner =>
        rcases hscan : scanInnerTypeID m (.ptr inner) with _ | tid2
        · rfl
        · have htd : tid2 = tid := by
            simp only [resolvedTypeID, h0, hscan] at h
            exact Option.some.inj h
          rw [htd]
          exact getBrickCore_lid w f m ctx (.ptr inner) tid
      | base n =>
        rcases h2 : m.getBrickTypeID (.ptr (.base n)) with _ | tid2
        · rfl
        · have htd : tid2 = tid := by
            simp only [resolvedTypeID, h0, h2] at h
            exact Option.some.inj h
          have hin := ih (.ptr (.base n)) tid
            (by simp only [resolvedTypeID, Manager.getBrickTypeID] at h2 ⊢
                rw [h2, htd])
          rw [hin]
    · have htd : tid0 = tid := by
        simp only [resolvedTypeID, h0] at h
        exact Option.some.inj h
      rw [htd]
      exact getBrickCore_lid w f m ctx t tid

/-- A successful build pass leaves the built instance in the cache under the
target identity and returns its conversion to the requested shape. -/
theorem getBrickBuildDo_success_cached (w : World) (fuel : Nat) (m : Manager)
    (ctx' : Ctx) (t : GoType) (target tid : String) (v : Value) (m' : Manager)
    (h : getBrickBuildDo w fuel m ctx' t target tid = (.ok v, m')) :
    ∃ stored, m'.getBrickFromExist target = some stored ∧
      v = convertInstance stored t := by
  cases fuel with
  | zero => simp [getBrickBuildDo] at h
  | succ f =>
    simp only [getBrickBuildDo] at h
    rcases hce : (match m.getBrickConfig target with
      | some cfg =>
        if cfg.LiveID ≠ target then
          some (Err.configLiveIDMismatch cfg.LiveID target)
        else if cfg.TypeID ≠ tid then
          some (Err.configTypeIDMismatch cfg.TypeID tid)
        else none
      | none => none) with _ | e
    · rw [hce] at h
      rcases hfac : m.getBrickFactory tid with _ | fac
      · rw [hfac] at h
        simp only [createEmptyPtrInstance, Manager.alloc] at h
        rcases hj : injectBrick w f { m with allocCounter := m.allocCounter + 1 }
            ctx' ⟨baseNameOf t, Nat.max 1 (getPointerLevel t), m.allocCounter⟩
            target with ⟨rj, mj⟩
        rw [hj] at h
        cases rj with
        | error e => simp at h
        | ok ret2 =>
          simp only [Manager.saveBrickInstance] at h
          by_cases hlvl : ret2.level = 0
          · rw [if_pos hlvl] at h
            simp at h
          · rw [if_neg hlvl] at h
            simp only [Prod.mk.injEq, Except.ok.injEq] at h
            obtain ⟨hv, hm⟩ := h
            refine ⟨ret2, ?_, hv.symm⟩
            rw [← hm]
            simp [Manager.getBrickFromExist, alookup_cons]
      · rw [hfac] at h
        simp only [invokeFactory, Manager.alloc] at h
        by_cases hsame : ¬ isSameBaseType
            (Value.goType ⟨fac.retBase, fac.retLevel, m.allocCounter⟩) t = true
        · rw [if_pos hsame] at h
          simp at h
        · rw [if_neg hsame] at h
          rcases hj : injectBrick w f { m with allocCounter := m.allocCounter + 1 }
              ctx'
              (if fac.retLevel ≥ 1 then ⟨fac.retBase, fac.retLevel, m.allocCounter⟩
               else wrapPointerLayer ⟨fac.retBase, fac.retLevel, m.allocCounter⟩)
              target with ⟨rj, mj⟩
          rw [hj] at h
          cases rj with
          | error e => simp at h
          | ok ret2 =>
            simp only [Manager.saveBrickInstance] at h
            by_cases hlvl : ret2.level = 0
            · rw [if_pos hlvl] at h
              simp at h
            · rw [if_neg hlvl] at h
              simp only [Prod.mk.injEq, Except.ok.injEq] at h
              obtain ⟨hv, hm⟩ := h
              refine ⟨ret2, ?_, hv.symm⟩
              rw [← hm]
              simp [Manager.getBrickFromExist, alookup_cons]
    · rw [hce] at h
      simp at h

/-- A successful core resolution leaves (or finds) the instance in the cache
under the target identity and returns its conversion to the requested
shape. -/
theorem getBrickCore_success_cached (w : World) (fuel : Nat) (m : Manager)
    (ctx : Ctx) (t : GoType) (lid tid : String) (v : Value) (m' : Manager)
    (h : getBrickCore w fuel m ctx t lid tid = (.ok v, m')) :
    ∃ stored,
      m'.getBrickFromExist (if lid ≠ "" then lid else tid) = some stored ∧
      v = convertInstance stored t := by
  cases fuel with
  | zero => simp [getBrickCore] at h
  | succ f =>
    simp only [getBrickCore] at h
    by_cases hcol : (if lid ≠ "" then lid else tid) ≠ tid ∧
        (m.getBrickType (if lid ≠ "" then lid else tid)).isSome = true
    · rw [if_pos hcol] at h
      simp at h
    · rw [if_neg hcol] at h
      rcases hfast : m.getBrickFromExist (if lid ≠ "" then lid else tid)
          with _ | brick
      · rw [hfast] at h
        by_cases hdecl : ¬ctx.createUnknown = true ∧
            (if lid ≠ "" then lid else tid) ≠ tid ∧
            ¬(m.getDeclaredLiveID (if lid ≠ "" then lid else tid)) = true
        · rw [if_pos hdecl] at h
          simp at h
        · rw [if_neg hdecl] at h
          by_cases hcyc : t ∈ ctx.buildingBrick
          · rw [if_pos hcyc] at h
            simp at h
          · rw [if_neg hcyc] at h
            exact getBrickBuildDo_success_cached w f m
              { ctx with buildingBrick := t :: ctx.buildingBrick } t _ tid v m' h
      · rw [hfast] at h
        simp only [Prod.mk.injEq, Except.ok.injEq] at h
        obtain ⟨hv, hm⟩ := h
        refine ⟨brick, ?_, hv.symm⟩
        rw [← hm]
        exact hfast

/-- A successful resolution with the empty live identity leaves the instance
cached under the resolved type identifier. -/
theorem getBrickInstance_success_cached (w : World) (fuel : Nat) (m : Manager)
    (ctx : Ctx) (t : GoType) (tid : String) (v : Value) (m' : Manager)
    (hres : resolvedTypeID m t = some tid)
    (h : getBrickInstance w fuel m ctx t "" = (.ok v, m')) :
    ∃ stored, m'.getBrickFromExist tid = some stored ∧
      v = convertInstance stored t := by
  have htarget : ∀ s : String, (if ("" : String) ≠ "" then "" else s) = s :=
    fun s => if_neg (fun hc => hc rfl)
  cases fuel with
  | zero => simp [getBrickInstance] at h
  | succ f =>
    simp only [getBrickInstance] at h
    rcases h0 : m.getBrickTypeID t with _ | tid0
    · rw [h0] at h
      cases t with
      | ptr inner =>
        rcases hscan : scanInnerTypeID m (.ptr inner) with _ | tid2
        · rw [hscan] at h
          simp at h
        · rw [hscan] at h
          have htd : tid2 = tid := by
            simp only [resolvedTypeID, h0, hscan] at hres
            exact Option.some.inj hres
          subst htd
          have := getBrickCore_success_cached w f m ctx (.ptr inner) "" tid2
            v m' h
          rw [htarget tid2] at this
          exact this
      | base n =>
        rcases h2 : m.getBrickTypeID (.ptr (.base n)) with _ | tid2
        · rw [h2] at h
          simp at h
        · rw [h2] at h
          have htd : tid2 = tid := by
            simp only [resolvedTypeID, h0, h2] at hres
            exact Option.some.inj hres
          subst htd
          rcases hin : getBrickInstance w f m ctx (.ptr (.base n)) ""
              with ⟨rin, min⟩
          rw [hin] at h
          cases rin with
          | error e => simp at h
          | ok v' =>
            simp only [Prod.mk.injEq, Except.ok.injEq] at h
            obtain ⟨hv, hm⟩ := h
            cases f with
            | zero => simp [getBrickInstance] at hin
            | succ f2 =>
              simp only [getBrickInstance] at hin
              rw [h2] at hin
              obtain ⟨stored, hcache, hv'⟩ := getBrickCore_success_cached w f2
                m ctx (.ptr (.base n)) "" tid2 v' min hin
              rw [htarget tid2] at hcache
              refine ⟨stored, by rw [← hm]; exact hcache, ?_⟩
              rw [← hv, hv']
              simp [derefValue, convertInstance, getPointerLevel]
    · rw [h0] at h
      have htd : tid0 = tid := by
        simp only [resolvedTypeID, h0] at hres
        exact Option.some.inj hres
      subst htd
      have := getBrickCore_success_cached w f m ctx t "" tid0 v m' h
      rw [htarget tid0] at this
      exact this

/-- Core resolution under a cached target identity serves the cached
instance and leaves the state untouched. -/
theorem getBrickCore_cache_hit (w : World) (fuel : Nat) (m : Manager)
    (ctx : Ctx) (t : GoType) (tid : String) (stored : Value)
    (hcache : m.getBrickFromExist tid = some stored) :
    getBrickCore w (fuel + 1) m ctx t tid tid =
      (.ok (convertInstance stored t), m) := by
  simp only [getBrickCore]
  have h2 : (if tid ≠ "" then tid else tid) = tid := ite_self tid
  rw [h2, if_neg (fun hc => hc.1 rfl), hcache]

/-- `derefValue` undoes the pointer layer added by converting to a pointer
shape. -/
theorem derefValue_convertInstance_ptr (v : Value) (t : GoType) :
    derefValue (convertInstance v (.ptr t)) = convertInstance v t := by
  simp [derefValue, convertInstance, getPointerLevel]

/-- Resolution under a cached target identity serves the cached instance and
leaves the state untouched. -/
theorem getBrickInstance_cache_hit (w : World) (fuel : Nat) (m : Manager)
    (ctx : Ctx) (t : GoType) (tid : String) (stored : Value)
    (hres : resolvedTypeID m t = some tid)
    (hcache : m.getBrickFromExist tid = some stored) :
    getBrickInstance w (fuel + 1 + 1 + 1) m ctx t tid =
      (.ok (convertInstance stored t), m) := by
  simp only [getBrickInstance]
  rcases h0 : m.getBrickTypeID t with _ | tid0
  · cases t with
    | ptr inner =>
      rcases hscan : scanInnerTypeID m (.ptr inner) with _ | tid2
      · simp [resolvedTypeID, h0, hscan] at hres
      · have htd : tid2 = tid := by
          simp only [resolvedTypeID, h0, hscan] at hres
          exact Option.some.inj hres
        subst htd
        exact getBrickCore_cache_hit w (fuel + 1) m ctx (.ptr inner) tid2
          stored hcache
    | base n =>
      rcases h2 : m.getBrickTypeID (GoType.ptr (.base n)) with _ | tid2
      · simp [resolvedTypeID, h0, h2] at hres
      · have htd : tid2 = tid := by
          simp only [resolvedTypeID, h0, h2] at hres
          exact Option.some.inj hres
        subst htd
        dsimp only
        rw [getBrickCore_cache_hit w fuel m ctx (GoType.ptr (.base n)) tid2
          stored hcache]
        dsimp only
        rw [derefValue_convertInstance_ptr]
  · have htd : tid0 = tid := by
      simp only [resolvedTypeID, h0] at hres
      exact Option.some.inj hres
    subst htd
    exact getBrickCore_cache_hit w (fuel + 1) m ctx t tid0 stored hcache

/-- C3: a request with the empty live identity uses the resolved type
identifier as the target, so requesting with no identity and requesting
with the type identifier itself are the very same computation — both for
`Get` and `GetOrCreate` (first two conjuncts).  Moreover a successful
`Get(T, "")` leaves its result cached under the type identifier, the
returned value is that cached instance converted to the requested shape,
and a subsequent `Get(T, T.typeID)`-style resolution on the resulting state
serves exactly that cached instance, with the state unchanged (third
conjunct: the second call hits the instance cache populated by the
first). -/
theorem get_default_identity (w : World) (fuel : Nat) (m : Manager)
    (t : GoType) (tid : String) (hres : resolvedTypeID m t = some tid) :
    Get w fuel m t "" = Get w fuel m t tid ∧
    GetOrCreate w fuel m t "" = GetOrCreate w fuel m t tid ∧
    (∀ v m', Get w fuel m t "" = (.ok v, m') →
      ∃ stored, m'.getBrickFromExist tid = some stored ∧
        v = convertInstance stored t ∧
        ∀ fuel2 ctx2, getBrickInstance w (fuel2 + 1 + 1 + 1) m' ctx2 t tid =
          (.ok v, m')) := by
  refine ⟨?_, ?_, ?_⟩
  · simp only [Get]
    cases checkConfig m with
    | error e => rfl
    | ok u => exact getBrickInstance_default_lid w m _ fuel t tid hres
  · simp only [GetOrCreate]
    cases checkConfig m with
    | error e => rfl
    | ok u => exact getBrickInstance_default_lid w m _ fuel t tid hres
  · intro v m' hsucc
    simp only [Get] at hsucc
    rcases hcc : checkConfig m with e | u
    · rw [hcc] at hsucc
      simp at hsucc
    · rw [hcc] at hsucc
      dsimp only at hsucc
      obtain ⟨stored, hcache, hv⟩ :=
        getBrickInstance_success_cached w fuel m _ t tid v m' hres hsucc
      refine ⟨stored, hcache, hv, ?_⟩
      intro fuel2 ctx2
      have hpres := ((enginePreserves w fuel).1 m
        { buildingBrick := [], createUnknown := false } t "").1
      rw [hsucc] at hpres
      have hres' : resolvedTypeID m' t = some tid :=
        (resolvedTypeID_congr hpres.1 t).trans hres
      have hhit := getBrickInstance_cache_hit w fuel2 m' ctx2 t tid stored
        hres' hcache
      rw [hhit, ← hv]

/-- C3, witness: in the scenario world the default request for `Root`
resolves to type identifier `"R"`. -/
theorem get_default_identity_witness :
    resolvedTypeID scenM rootT = some "R" ∧
    (Get scenW 12 scenM rootT "" = Get scenW 12 scenM rootT "R" ∧
    GetOrCreate scenW 12 scenM rootT "" = GetOrCreate scenW 12 scenM rootT "R" ∧
    (∀ v m', Get scenW 12 scenM rootT "" = (.ok v, m') →
      ∃ stored, m'.getBrickFromExist "R" = some stored ∧
        v = convertInstance stored rootT ∧
        ∀ fuel2 ctx2,
          getBrickInstance scenW (fuel2 + 1 + 1 + 1) m' ctx2 rootT "R" =
            (.ok v, m'))) :=
  ⟨by decide, get_default_identity scenW 12 scenM rootT "R" (by decide)⟩

/-! ## Claim C2: undeclared live identities -/

/-- C2, counterexample: in the scenario world the live identity `"L"`
satisfies every hypothesis of the claim — no instance exists under it, it
differs from `Root`'s type identifier `"R"`, and it is not declared — yet
`GetOrCreate(Root, "L")` does not succeed: `"L"` is `Leaf`'s type
identifier, so resolution fails with the identity-collision error (and
`Get(Root, "L")` fails with the same collision error, not with the message
directing to the create-if-missing entry point). -/
theorem get_undeclared_counterexample :
    scenM.getBrickFromExist "L" = none ∧
    scenM.getBrickTypeID rootT = some "R" ∧
    ("L" : String) ≠ "R" ∧
    scenM.getDeclaredLiveID "L" = false ∧
    GetOrCreate scenW 10 scenM rootT "L" =
      (.error (.liveIDCollision "L"), scenM) ∧
    Get scenW 10 scenM rootT "L" = (.error (.liveIDCollision "L"), scenM) :=
  ⟨by decide, by decide, by decide, by decide, rfl, rfl⟩

/-- The config validation pass never raises the undeclared-identity
error. -/
theorem checkConfigList_no_notDeclared (m : Manager) :
    ∀ l y, checkConfigList m l ≠ .error (.notDeclared y) := by
  intro l
  induction l with
  | nil => intro y h; exact absurd h (by simp [checkConfigList])
  | cons p rest ih =>
    intro y
    simp only [checkConfigList]
    split
    · simp
    · exact ih y

/-- C2, amended: under the claim's hypotheses strengthened by "the identity
is not some registered type's type identifier" (otherwise both entry points
fail with the collision error, as the counterexample shows), `Get` fails
fatally with the undeclared-identity error, leaving the state untouched;
that error's message directs the caller to the create-if-missing entry
point `GetOrCreate` (second conjunct); `GetOrCreate` for its part can never
fail with the undeclared-identity error (third conjunct), but it is not
guaranteed to succeed in general — in the scenario world it does: after the
default `Root` instance is built, `GetOrCreate(Root, "other")` returns an
instance distinct from the default one (remaining conjuncts). -/
theorem get_undeclared_amended (w : World) (fuel : Nat) (m : Manager)
    (t : GoType) (lid tid : String)
    (hreg : m.getBrickTypeID t = some tid)
    (hnoinst : m.getBrickFromExist lid = none)
    (hne : lid ≠ tid) (hne' : lid ≠ "")
    (hnodecl : m.getDeclaredLiveID lid = false)
    (hnocol : m.getBrickType lid = none)
    (hcc : checkConfig m = .ok ()) :
    Get w (fuel + 1 + 1) m t lid = (.error (.notDeclared lid), m) ∧
    (∃ pre post, errMessage (.notDeclared lid) =
      pre ++ "GetOrCreate" ++ post) ∧
    (∀ fuel2 y, (GetOrCreate w fuel2 m t lid).1 ≠ .error (.notDeclared y)) ∧
    (Get scenW 12 scenM rootT "").1 = .ok ⟨"Root", 1, 0⟩ ∧
    (GetOrCreate scenW 12 (Get scenW 12 scenM rootT "").2 rootT "other").1 =
      .ok ⟨"Root", 1, 2⟩ ∧
    (⟨"Root", 1, 2⟩ : Value) ≠ ⟨"Root", 1, 0⟩ := by
  refine ⟨?_, ?_, ?_, rfl, rfl, by decide⟩
  · simp only [Get, hcc]
    simp only [getBrickInstance, hreg]
    simp only [getBrickCore]
    have hl : (if lid ≠ "" then lid else tid) = lid := if_pos hne'
    rw [hl]
    rw [if_neg (fun hc => by rw [hnocol] at hc; simp at hc)]
    rw [hnoinst]
    rw [if_pos ⟨by simp, hne, fun hd => by rw [hnodecl] at hd; simp at hd⟩]
  · exact ⟨"liveID(" ++ lid ++
      ") is not explicitly declared in the configuration or tag, you can use ",
      " to create it", rfl⟩
  · intro fuel2 y
    simp only [GetOrCreate, hcc]
    exact ((enginePreserves w fuel2).1 m
      { buildingBrick := [], createUnknown := true } t lid).2.2.2 rfl y

/-- C2, witness: the amended statement at `Root` and the fresh identity
`"other"` in the scenario world. -/
theorem get_undeclared_amended_witness :
    scenM.getBrickTypeID rootT = some "R" ∧
    scenM.getBrickFromExist "other" = none ∧
    ("other" : String) ≠ "R" ∧
    ("other" : String) ≠ "" ∧
    scenM.getDeclaredLiveID "other" = false ∧
    scenM.getBrickType "other" = none ∧
    (Get scenW 12 scenM rootT "other" =
      (.error (.notDeclared "other"), scenM) ∧
    (∃ pre post, errMessage (.notDeclared "other") =
      pre ++ "GetOrCreate" ++ post) ∧
    (∀ fuel2 y, (GetOrCreate scenW fuel2 scenM rootT "other").1 ≠
      .error (.notDeclared y)) ∧
    (Get scenW 12 scenM rootT "").1 = .ok ⟨"Root", 1, 0⟩ ∧
    (GetOrCreate scenW 12 (Get scenW 12 scenM rootT "").2 rootT "other").1 =
      .ok ⟨"Root", 1, 2⟩ ∧
    (⟨"Root", 1, 2⟩ : Value) ≠ ⟨"Root", 1, 0⟩) :=
  ⟨by decide, by decide, by decide, by decide, by decide, by decide,
    get_undeclared_amended scenW 10 scenM rootT "other" "R" (by decide)
      (by decide) (by decide) (by decide) (by decide) (by decide) rfl⟩

/-! ## Claim C1: cycle detection and termination -/

/-- A type that clone-depends on itself: `*C` has one settable field of its
own type tagged `clone`. -/
def cT : GoType := .ptr (.base "C")

/-- The world of the self-cloning type. -/
def cloneW : World :=
  { structs := [("C", ⟨[⟨"D", cT, some "clone", true⟩]⟩)]
    valueImpl := [], ptrOnlyImpl := ["C"], typeIDs := [("C", "C")]
    newer := [], lives := [] }

/-- The manager after registering `*C` (shown equal to the registration
result in the counterexample theorem). -/
def cloneM : Manager :=
  { brickConfigs := [], instances := [], brickFactories := []
    map1 := [(cT, "C")], map2 := [("C", cT)], liveIDTypeMap := []
    declaredLiveIDs := [], liveIDConstraint := true
    randCounter := 0, allocCounter := 0 }

/-- A type that plainly depends on itself: `*S` has one settable field of
its own type with an empty `brick` tag. -/
def cycT : GoType := .ptr (.base "S")

/-- The world of the plainly self-dependent type. -/
def cycW : World :=
  { structs := [("S", ⟨[⟨"Self", cycT, some "", true⟩]⟩)]
    valueImpl := [], ptrOnlyImpl := ["S"], typeIDs := [("S", "S")]
    newer := [], lives := [] }

/-- The manager after registering `*S`. -/
def cycM : Manager :=
  { brickConfigs := [], instances := [], brickFactories := []
    map1 := [(cycT, "S")], map2 := [("S", cycT)], liveIDTypeMap := []
    declaredLiveIDs := [], liveIDConstraint := true
    randCounter := 0, allocCounter := 0 }

/-- Resolving the self-cloning type exhausts every recursion budget: the
clone subsystem re-enters resolution with a *fresh, empty* cycle-guard
context and a fresh live identity, so the guard never fires and the
recursion never bottoms out.  The manager is kept abstract up to the fields
the loop reads, because the oracle counters grow on every round. -/
theorem cloneGetDiverges :
    ∀ (f : Nat) (m : Manager) (bb : List GoType) (cu : Bool) (lid : String),
      m.brickConfigs = [] → m.instances = [] → m.brickFactories = [] →
      m.map1 = [(cT, "C")] → m.map2 = [("C", cT)] →
      (lid = "" ∨ cu = true) → ¬ cT ∈ bb →
      (getBrickInstance cloneW f m
        { buildingBrick := bb, createUnknown := cu } cT lid).1 =
        .error .fuelOut := by
  intro f
  induction f using Nat.strong_induction_on with
  | _ f ih =>
    intro m bb cu lid hcfg hinst hfac hm1 hm2 hlid hbb
    have hgetty : ∀ (mx : Manager), mx.map1 = [(cT, "C")] →
        mx.getBrickTypeID cT = some "C" := by
      intro mx h1
      rw [Manager.getBrickTypeID, h1, alookup_cons, if_pos rfl]
    have hCloneB : ∀ g, g < f → ∀ (mx : Manager) (s : String),
        mx.brickConfigs = [] → mx.instances = [] → mx.brickFactories = [] →
        mx.map1 = [(cT, "C")] → mx.map2 = [("C", cT)] →
        (cloneBrick cloneW g mx cT s).1 = .error .fuelOut := by
      intro g hg mx s hc hi hf h1 h2
      cases g with
      | zero => rfl
      | succ g2 =>
        simp only [cloneBrick, Manager.freshRandom]
        have hgc : ({ mx with randCounter := mx.randCounter + 1 } :
            Manager).getBrickConfig s = none := by
          simp [Manager.getBrickConfig, hc, alookup]
        rw [hgc]
        rcases hr : getBrickInstance cloneW g2
            { mx with randCounter := mx.randCounter + 1 }
            { buildingBrick := [], createUnknown := true } cT
            (randomLiveID mx.randCounter) with ⟨rg, mg⟩
        have hih := ih g2 (by omega)
          { mx with randCounter := mx.randCounter + 1 } [] true
          (randomLiveID mx.randCounter) (by simp [hc]) (by simp [hi])
          (by simp [hf]) (by simp [h1]) (by simp [h2]) (Or.inr rfl) (by simp)
        rw [hr] at hih
        exact hih
    have hFields : ∀ g, g < f → ∀ (mx : Manager) (ctx : Ctx) (blid : String),
        mx.brickConfigs = [] → mx.instances = [] → mx.brickFactories = [] →
        mx.map1 = [(cT, "C")] → mx.map2 = [("C", cT)] →
        (injectFields cloneW g mx ctx none blid
          [⟨"D", cT, some "clone", true⟩]).1 = .error .fuelOut := by
      intro g hg mx ctx blid hc hi hf h1 h2
      cases g with
      | zero => rfl
      | succ g2 =>
        simp only [injectFields]
        rw [show effectiveTag none "D" "clone" = "clone" from rfl]
        rw [show parseTag "clone" = ("", "", true, false) from rfl]
        simp only [ite_true, ite_false]
        rw [hgetty mx h1]
        rcases hr : cloneBrick cloneW g2 mx cT "C" with ⟨rc, mc⟩
        have hcb := hCloneB g2 (by omega) mx "C" hc hi hf h1 h2
        rw [hr] at hcb
        simp only at hcb
        subst hcb
        simp [hr]
    have hInj : ∀ g, g < f → ∀ (mx : Manager) (ctx : Ctx) (lvl ad : Nat)
        (blid : String),
        mx.brickConfigs = [] → mx.instances = [] → mx.brickFactories = [] →
        mx.map1 = [(cT, "C")] → mx.map2 = [("C", cT)] →
        (injectBrick cloneW g mx ctx ⟨"C", lvl, ad⟩ blid).1 =
          .error .fuelOut := by
      intro g hg mx ctx lvl ad blid hc hi hf h1 h2
      cases g with
      | zero => rfl
      | succ g2 =>
        simp only [injectBrick]
        rw [show alookup ("C" : String) cloneW.structs =
          some ⟨[⟨"D", cT, some "clone", true⟩]⟩ from rfl]
        rw [show getBrickLives cloneW "C" = none from rfl]
        rcases hr : injectFields cloneW g2 mx ctx none blid
            [⟨"D", cT, some "clone", true⟩] with ⟨rf2, mf⟩
        have hfl := hFields g2 (by omega) mx ctx blid hc hi hf h1 h2
        rw [hr] at hfl
        simp only at hfl
        subst hfl
        simp [hr]
    have hBuild : ∀ g, g < f → ∀ (mx : Manager) (ctx : Ctx) (target : String),
        mx.brickConfigs = [] → mx.instances = [] → mx.brickFactories = [] →
        mx.map1 = [(cT, "C")] → mx.map2 = [("C", cT)] →
        (getBrickBuildDo cloneW g mx ctx cT target "C").1 = .error .fuelOut := by
      intro g hg mx ctx target hc hi hf h1 h2
      cases g with
      | zero => rfl
      | succ g2 =>
        simp only [getBrickBuildDo]
        have hgc : mx.getBrickConfig target = none := by
          simp [Manager.getBrickConfig, hc, alookup]
        rw [hgc]
        have hgf : mx.getBrickFactory "C" = none := by
          simp [Manager.getBrickFactory, hf, alookup]
        rw [hgf]
        simp only [createEmptyPtrInstance, Manager.alloc]
        rw [show (⟨baseNameOf cT, Nat.max 1 (getPointerLevel cT),
          mx.allocCounter⟩ : Value) = ⟨"C", 1, mx.allocCounter⟩ from rfl]
        rcases hr : injectBrick cloneW g2
            { mx with allocCounter := mx.allocCounter + 1 } ctx
            ⟨"C", 1, mx.allocCounter⟩ target with ⟨rj, mj⟩
        have hin := hInj g2 (by omega)
          { mx with allocCounter := mx.allocCounter + 1 } ctx 1
          mx.allocCounter target (by simp [hc]) (by simp [hi]) (by simp [hf])
          (by simp [h1]) (by simp [h2])
        rw [hr] at hin
        simp only at hin
        subst hin
        simp [hr]
    cases f with
    | zero => rfl
    | succ f1 =>
      simp only [getBrickInstance]
      rw [hgetty m hm1]
      cases f1 with
      | zero => rfl
      | succ f2 =>
        simp only [getBrickCore]
        have hcol : ¬((if lid ≠ "" then lid else "C") ≠ "C" ∧
            ((m.getBrickType (if lid ≠ "" then lid else "C")).isSome = true)) := by
          rintro ⟨a, b⟩
          rw [Manager.getBrickType, hm2, alookup_cons,
            if_neg (fun he => a he.symm)] at b
          simp [alookup] at b
        rw [if_neg hcol]
        have hfe : m.getBrickFromExist (if lid ≠ "" then lid else "C") =
            none := by
          simp [Manager.getBrickFromExist, hinst, alookup]
        rw [hfe]
        have hdecl : ¬(¬({ buildingBrick := bb, createUnknown := cu } :
              Ctx).createUnknown = true ∧
            (if lid ≠ "" then lid else "C") ≠ "C" ∧
            ¬(m.getDeclaredLiveID (if lid ≠ "" then lid else "C")) = true) := by
          rintro ⟨a, b, c⟩
          rcases hlid with h | h
          · subst h
            simp at b
          · subst h
            simp at a
        rw [if_neg hdecl]
        have hcyc : ¬(cT ∈ ({ buildingBrick := bb, createUnknown := cu } :
            Ctx).buildingBrick) := by simpa using hbb
        rw [if_neg hcyc]
        exact hBuild f2 (by omega) m _ _ hcfg hinst hfac hm1 hm2

/-- C1, counterexample: the self-cloning world.  `*C` is registered and its
only dependency field reaches `*C` again within one resolution call chain,
yet neither `Get` nor `GetOrCreate` fails with the circular-dependency
error: at *every* recursion budget the resolution exhausts the budget — the
Go original recurses unboundedly (each clone round re-enters resolution
under a fresh live identity with a fresh, empty under-construction set), so
resolution does not terminate. -/
theorem cycle_detection_counterexample :
    cloneM = (register cloneW 10 initManager
      { TypeID := "C", ReflectType := cT, Lives := [], BrickFactory := none }).2 ∧
    (∀ fuel, (GetOrCreate cloneW fuel cloneM cT "").1 = .error .fuelOut) ∧
    (∀ fuel, (Get cloneW fuel cloneM cT "").1 = .error .fuelOut) := by
  refine ⟨rfl, ?_, ?_⟩
  · intro fuel
    simp only [GetOrCreate]
    rw [show checkConfig cloneM = .ok () from rfl]
    exact cloneGetDiverges fuel cloneM [] true "" rfl rfl rfl rfl rfl
      (Or.inl rfl) (by simp)
  · intro fuel
    simp only [Get]
    rw [show checkConfig cloneM = .ok () from rfl]
    exact cloneGetDiverges fuel cloneM [] false "" rfl rfl rfl rfl rfl
      (Or.inl rfl) (by simp)

/-- C1, amended: the per-call cycle guard does catch *plain* re-entry:
whenever the requested type is already in the per-call under-construction
set (and the earlier checks do not fire first), core resolution fails with
the circular-dependency error naming the type and the live identity, with
the state unchanged (first conjunct).  The under-construction set is
per-call: both entry points start resolution from a fresh, empty context
(second conjunct).  In the plainly self-dependent world the guard fires and
resolution terminates at every sufficient budget with the same error and
state (third and fourth conjuncts).  The claim's termination half is wrong
only for `clone`-tagged cycles, which restart resolution with an empty
guard set (see the counterexample). -/
theorem cycle_detection_amended (w : World) (fuel : Nat) (m : Manager)
    (ctx : Ctx) (t : GoType) (lid tid : String)
    (hcyc : t ∈ ctx.buildingBrick)
    (hnocol : ¬((if lid ≠ "" then lid else tid) ≠ tid ∧
      (m.getBrickType (if lid ≠ "" then lid else tid)).isSome = true))
    (hnoinst : m.getBrickFromExist (if lid ≠ "" then lid else tid) = none)
    (hdecl : ¬(¬ctx.createUnknown = true ∧
      (if lid ≠ "" then lid else tid) ≠ tid ∧
      ¬(m.getDeclaredLiveID (if lid ≠ "" then lid else tid)) = true)) :
    getBrickCore w (fuel + 1) m ctx t lid tid =
      (.error (.circularDependency t (if lid ≠ "" then lid else tid)), m) ∧
    (checkConfig m = .ok () →
      Get w fuel m t lid =
        getBrickInstance w fuel m
          { buildingBrick := [], createUnknown := false } t lid ∧
      GetOrCreate w fuel m t lid =
        getBrickInstance w fuel m
          { buildingBrick := [], createUnknown := true } t lid) ∧
    cycM = (register cycW 10 initManager
      { TypeID := "S", ReflectType := cycT, Lives := [], BrickFactory := none }).2 ∧
    (∀ k, Get cycW (k + 7) cycM cycT "" =
      (.error (.circularDependency cycT "S"),
        { cycM with allocCounter := 1 })) := by
  refine ⟨?_, ?_, rfl, fun k => rfl⟩
  · simp only [getBrickCore]
    rw [if_neg hnocol, hnoinst, if_neg hdecl, if_pos hcyc]
  · intro hcc
    constructor
    · simp only [Get, hcc]
    · simp only [GetOrCreate, hcc]

/-- C1, witness: the cycle guard firing on re-entry of `*S` in the plainly
self-dependent world. -/
theorem cycle_detection_amended_witness :
    cycT ∈ ({ buildingBrick := [cycT], createUnknown := false } :
      Ctx).buildingBrick ∧
    ¬((if ("" : String) ≠ "" then "" else "S") ≠ "S" ∧
      (cycM.getBrickType (if ("" : String) ≠ "" then "" else "S")).isSome =
        true) ∧
    cycM.getBrickFromExist (if ("" : String) ≠ "" then "" else "S") = none ∧
    ¬(¬({ buildingBrick := [cycT], createUnknown := false } :
        Ctx).createUnknown = true ∧
      (if ("" : String) ≠ "" then "" else "S") ≠ "S" ∧
      ¬(cycM.getDeclaredLiveID
        (if ("" : String) ≠ "" then "" else "S")) = true) ∧
    (getBrickCore cycW 11 cycM
        { buildingBrick := [cycT], createUnknown := false } cycT "" "S" =
      (.error (.circularDependency cycT (if ("" : String) ≠ "" then "" else "S")),
        cycM) ∧
    (checkConfig cycM = .ok () →
      Get cycW 10 cycM cycT "" =
        getBrickInstance cycW 10 cycM
          { buildingBrick := [], createUnknown := false } cycT "" ∧
      GetOrCreate cycW 10 cycM cycT "" =
        getBrickInstance cycW 10 cycM
          { buildingBrick := [], createUnknown := true } cycT "") ∧
    cycM = (register cycW 10 initManager
      { TypeID := "S", ReflectType := cycT, Lives := [], BrickFactory := none }).2 ∧
    (∀ k, Get cycW (k + 7) cycM cycT "" =
      (.error (.circularDependency cycT "S"),
        { cycM with allocCounter := 1 }))) :=
  ⟨by decide, by decide, by decide, by decide,
    cycle_detection_amended cycW 10 cycM
      { buildingBrick := [cycT], createUnknown := false } cycT "" "S"
      (by decide) (by decide) (by decide) (by decide)⟩

end Brick
